import Mathlib

/-!
Formal model of the NatureLang compiler's middle end and back end
(semantic analyzer, TAC IR builder, optimizer, C code generator),
translated from the C sources in `src/`:

* `src/ir/optimizer.c`   — six optimization passes, fixpoint driver, sweep
* `src/semantic/symbol_table.c`, `src/semantic/semantic.c` — scopes + analysis
* `src/ir/ir.c`          — AST → TAC lowering
* `src/codegen/ir_codegen.c` — TAC → C emission (call lowering)

Modelling conventions:

* C linked lists (instructions, scope chains, symbol chains) are Lean lists;
  the `prev`/`next` pointers of `TACInstr` are represented by list adjacency.
* C `long long` is modelled as unbounded `Int` (signed overflow is undefined
  behaviour in C and no property verified here depends on wraparound).
* C `double` constants are modelled as exact rationals (`Rat`).  Every double
  arising in the verified properties is compared against `0`, `1` or `2`,
  where rational and IEEE comparison agree; the numeric value stored by a
  float fold is otherwise not inspected by any theorem in this file.
* Heap management (`strdup`/`free` pairs in `dup_operand`, `release_operand`,
  `set_int_const`, …) has no observable effect in a value semantics and is
  dropped; the value carried by the operand is preserved exactly.
* `stderr`/`stdout` diagnostics (the `verbose` printing of the optimizer and
  the message text of `symtab_error`/`symtab_warning`) are I/O and are not
  modelled; error and warning *counts* are modelled exactly.
-/

set_option maxHeartbeats 1000000

namespace NatureLang

/-- Data types of NatureLang values (`DataType` in `ast.h`). -/
inductive DataType where
  | unknown
  | number
  | decimal
  | text
  | flag
  | list
  | nothing
  | function
  | error
deriving DecidableEq, Repr

/-- TAC opcodes (`TACOpcode` in `ir.h`).  `TAC_RETURN`, `TAC_BREAK` and
`TAC_CONTINUE` are spelled `ret`, `break_op`, `continue_op` because the C
names collide with Lean keywords. -/
inductive TACOpcode where
  | add | sub | mul | div | mod | pow | neg
  | eq | neq | lt | gt | lte | gte
  | and | or | not
  | assign | load_int | load_float | load_string | load_bool
  | label | goto | if_goto | if_false_goto
  | func_begin | func_end | param | call | ret
  | display | read | ask
  | decl
  | between
  | concat
  | break_op | continue_op
  | scope_begin | scope_end | secure_begin | secure_end
  | list_create | list_append | list_get | list_set
  | nop
deriving DecidableEq, Repr

/-- TAC operands (`TACOperand` in `ir.h`).  The C struct stores a
`data_type` for every kind; for the constant kinds that field is set to a
fixed value at every construction site (`TYPE_NUMBER` for `OPERAND_INT`,
`TYPE_DECIMAL` for `OPERAND_FLOAT`, `TYPE_TEXT` for `OPERAND_STRING`,
`TYPE_FLAG` for `OPERAND_BOOL`, `TYPE_UNKNOWN` for `OPERAND_LABEL`,
`TYPE_FUNCTION` for `OPERAND_FUNC`, `TYPE_UNKNOWN` for `OPERAND_NONE`), so
it is only carried explicitly where it varies: temps and variables. -/
inductive TACOperand where
  | none
  | temp (id : Int) (data_type : DataType)
  | var (name : String) (data_type : DataType)
  | int_const (val : Int)
  | float_const (val : Rat)
  | string_const (val : String)
  | bool_const (val : Bool)
  | label (id : Int)
  | func (name : String)
deriving DecidableEq, Repr

/-- One TAC instruction (`TACInstr` in `ir.h`).  The `line_number`
debugging field and the intrusive `prev`/`next` pointers are not part of
the value: list position plays the role of the links. -/
structure TACInstr where
  opcode : TACOpcode
  result : TACOperand
  arg1 : TACOperand
  arg2 : TACOperand
  arg3 : TACOperand
  is_dead : Bool
deriving DecidableEq, Repr

/-- One TAC function (`TACFunction` in `ir.h`); `name = Option.none` is the
top-level `<main>` function.  `instr_count` is the mutable counter the C
code maintains next to the linked list (`int`, hence `Int`). -/
structure TACFunction where
  name : Option String
  return_type : DataType
  param_names : List String
  param_types : List DataType
  instrs : List TACInstr
  instr_count : Int
deriving DecidableEq, Repr

/-! ## Optimizer helpers (`optimizer.c`) -/

/-- `is_int_const` from `optimizer.c`. -/
def is_int_const : TACOperand → Bool
  | .int_const _ => true
  | _ => false

/-- `is_float_const` from `optimizer.c`. -/
def is_float_const : TACOperand → Bool
  | .float_const _ => true
  | _ => false

/-- `is_numeric_const` from `optimizer.c`. -/
def is_numeric_const (op : TACOperand) : Bool :=
  is_int_const op || is_float_const op

/-- `is_bool_const` from `optimizer.c`. -/
def is_bool_const : TACOperand → Bool
  | .bool_const _ => true
  | _ => false

/-- `get_numeric_value` from `optimizer.c`: the operand's value as a
double (here an exact rational); `0.0` for non-numeric operands. -/
def get_numeric_value : TACOperand → Rat
  | .int_const n => (n : Rat)
  | .float_const x => x
  | _ => 0

/-- The C code reads `op->val.int_val` directly out of the union
(`ia`/`ib` in `opt_constant_folding`).  That read is only *observed* when
the operand has been checked to be an integer constant — on every other
path the fold outcome is the same for any value of the read (see the
`mod` case below) — so reading `0` for the other kinds is faithful. -/
def int_val : TACOperand → Int
  | .int_const n => n
  | _ => 0

/-- `bool_val` union member, same convention as `int_val`. -/
def bool_val : TACOperand → Bool
  | .bool_const b => b
  | _ => false

/-- `is_binary_op` from `optimizer.c`. -/
def is_binary_op : TACOpcode → Bool
  | .add | .sub | .mul | .div | .mod | .pow
  | .eq | .neq | .lt | .gt | .lte | .gte
  | .and | .or => true
  | _ => false

/-- `is_unary_op` from `optimizer.c`. -/
def is_unary_op (op : TACOpcode) : Bool :=
  op = .neg || op = .not

/-- `same_temp` from `optimizer.c`. -/
def same_temp : TACOperand → TACOperand → Bool
  | .temp a _, .temp b _ => a = b
  | _, _ => false

/-- `is_temp` from `optimizer.c`. -/
def is_temp : TACOperand → Bool
  | .temp _ _ => true
  | _ => false

/-- The double-precision `pow(a, b)` call used by the float branch of the
`TAC_POW` fold.  Integral exponents are computed exactly; the
transcendental case is abstracted (its value is never inspected by any
property proved in this file). -/
def c_pow (a b : Rat) : Rat :=
  if b.den = 1 ∧ 0 ≤ b.num then a ^ b.num.toNat
  else if b.den = 1 then if a = 0 then 0 else (a ^ (-b.num).toNat)⁻¹
  else 0

/-- Outcome of the binary-constant evaluation inside
`opt_constant_folding`: not folded, or folded to an int / float / bool
load. -/
inductive FoldOutcome where
  | not_folded
  | int_res (v : Int)
  | float_res (v : Rat)
  | bool_res (v : Bool)
deriving DecidableEq, Repr

/-- The `switch (instr->opcode)` evaluation of a binary operation on two
numeric constants in `opt_constant_folding` (optimizer.c:202-230).
`ia`/`ib` are the `int_val` union reads, `a`/`b` the double values,
`both_int` the flag computed before the switch.  C integer division and
remainder truncate toward zero, hence `Int.tdiv`/`Int.tmod`.  In the
`mod` case the C code first tests `ib == 0` and then falls into
`folded = false` whenever `both_int` is false, so without two integer
constants the fold is abandoned on every path, whatever the unspecified
union read `ib` was. -/
def fold_binary_eval (op : TACOpcode) (a b : Rat) (both_int : Bool)
    (ia ib : Int) : FoldOutcome :=
  match op with
  | .add => if both_int then .int_res (ia + ib) else .float_res (a + b)
  | .sub => if both_int then .int_res (ia - ib) else .float_res (a - b)
  | .mul => if both_int then .int_res (ia * ib) else .float_res (a * b)
  | .div =>
      if b = 0 then .not_folded
      else if both_int then .int_res (Int.tdiv ia ib) else .float_res (a / b)
  | .mod =>
      if both_int then
        if ib = 0 then .not_folded else .int_res (Int.tmod ia ib)
      else .not_folded
  | .pow =>
      if both_int ∧ 0 ≤ ib then .int_res (ia ^ ib.toNat)
      else .float_res (c_pow a b)
  | .eq => .bool_res (a = b)
  | .neq => .bool_res (a ≠ b)
  | .lt => .bool_res (a < b)
  | .gt => .bool_res (b < a)
  | .lte => .bool_res (a ≤ b)
  | .gte => .bool_res (b ≤ a)
  | _ => .not_folded

/-- The first block of the `opt_constant_folding` loop body: binary
operations whose two source operands are numeric constants
(optimizer.c:187-258).  Returns the rewritten instruction and the number
of transformations counted (0 or 1). -/
def fold_binary_step (i : TACInstr) : TACInstr × Nat :=
  if is_binary_op i.opcode ∧ is_numeric_const i.arg1 ∧ is_numeric_const i.arg2 then
    let a := get_numeric_value i.arg1
    let b := get_numeric_value i.arg2
    let both_int := is_int_const i.arg1 && is_int_const i.arg2
    let ia := int_val i.arg1
    let ib := int_val i.arg2
    match fold_binary_eval i.opcode a b both_int ia ib with
    | .not_folded => (i, 0)
    | .int_res v =>
        ({ i with opcode := .load_int, arg1 := .int_const v, arg2 := .none }, 1)
    | .float_res v =>
        ({ i with opcode := .load_float, arg1 := .float_const v, arg2 := .none }, 1)
    | .bool_res v =>
        ({ i with opcode := .load_bool, arg1 := .bool_const v, arg2 := .none }, 1)
  else (i, 0)

/-- The second block of the `opt_constant_folding` loop body: unary ops
with a numeric constant operand (only `TAC_NEG` folds there;
optimizer.c:261-279). -/
def fold_neg_step (i : TACInstr) : TACInstr × Nat :=
  if is_unary_op i.opcode ∧ is_numeric_const i.arg1 then
    if i.opcode = .neg then
      match i.arg1 with
      | .int_const v =>
          ({ i with opcode := .load_int, arg1 := .int_const (-v), arg2 := .none }, 1)
      | .float_const v =>
          ({ i with opcode := .load_float, arg1 := .float_const (-v), arg2 := .none }, 1)
      | _ => (i, 0)
    else (i, 0)
  else (i, 0)

/-- The third block: `TAC_NOT` on a bool constant (optimizer.c:282-291). -/
def fold_not_step (i : TACInstr) : TACInstr × Nat :=
  if i.opcode = .not ∧ is_bool_const i.arg1 then
    let v := !(bool_val i.arg1)
    ({ i with opcode := .load_bool, arg1 := .bool_const v, arg2 := .none }, 1)
  else (i, 0)

/-- The fourth block: `TAC_AND`/`TAC_OR` with two bool constants
(optimizer.c:294-308). -/
def fold_and_or_step (i : TACInstr) : TACInstr × Nat :=
  if (i.opcode = .and ∨ i.opcode = .or) ∧ is_bool_const i.arg1 ∧ is_bool_const i.arg2 then
    let v := if i.opcode = .and then bool_val i.arg1 && bool_val i.arg2
             else bool_val i.arg1 || bool_val i.arg2
    ({ i with opcode := .load_bool, arg1 := .bool_const v, arg2 := .none }, 1)
  else (i, 0)

/-- One iteration of the `opt_constant_folding` loop on a single
instruction: dead instructions are skipped, then the four fold blocks are
tried in sequence on the (possibly already rewritten) instruction,
exactly as the four consecutive `if` statements in the C loop body. -/
def fold_instr (i : TACInstr) : TACInstr × Nat :=
  if i.is_dead then (i, 0)
  else
    let (i1, c1) := fold_binary_step i
    let (i2, c2) := fold_neg_step i1
    let (i3, c3) := fold_not_step i2
    let (i4, c4) := fold_and_or_step i3
    (i4, c1 + c2 + c3 + c4)

/-- Pass 1, `opt_constant_folding` (optimizer.c:179-312): every
instruction is rewritten in place; the transformation count is the sum of
the per-instruction counts.  (The `verbose` printing is I/O and not
modelled; the `!func` NULL guard is unrepresentable for a by-value
function.) -/
def opt_constant_folding (func : TACFunction) : TACFunction × Nat :=
  ({ func with instrs := func.instrs.map (fun i => (fold_instr i).1) },
   (func.instrs.map (fun i => (fold_instr i).2)).sum)

/-! ## Claim C1 -/

theorem fold_instr_zero_divisor (i : TACInstr)
    (hz : (i.opcode = .div ∧ (i.arg2 = .int_const 0 ∨ i.arg2 = .float_const 0)) ∨
          (i.opcode = .mod ∧ i.arg2 = .int_const 0)) :
    fold_instr i = (i, 0) := by
  have hbin : fold_binary_step i = (i, 0) := by
    unfold fold_binary_step
    rcases hz with ⟨hop, h2 | h2⟩ | ⟨hop, h2⟩ <;>
      · by_cases h1 : is_numeric_const i.arg1 = true
        · cases hint : is_int_const i.arg1 <;>
            simp [hop, h2, h1, hint, is_binary_op, fold_binary_eval,
              get_numeric_value, int_val]
        · simp [hop, h1, is_binary_op]
  have hop' : i.opcode = .div ∨ i.opcode = .mod := by
    rcases hz with ⟨h, _⟩ | ⟨h, _⟩
    · exact Or.inl h
    · exact Or.inr h
  have hneg : fold_neg_step i = (i, 0) := by
    unfold fold_neg_step
    rcases hop' with h | h <;> simp [h, is_unary_op]
  have hnot : fold_not_step i = (i, 0) := by
    unfold fold_not_step
    rcases hop' with h | h <;> simp [h]
  have handor : fold_and_or_step i = (i, 0) := by
    unfold fold_and_or_step
    rcases hop' with h | h <;> simp [h]
  unfold fold_instr
  by_cases hd : i.is_dead
  · simp [hd]
  · simp [hd, hbin, hneg, hnot, handor]

/-- C1: constant folding (Pass 1) performs no transformation on a `Div`
instruction whose second source operand is a constant zero (integer or
float), nor on a `Mod` instruction whose second source operand is the
integer constant zero: at every position of every function's instruction
list holding such an instruction, the pass leaves the very same
instruction (not a `Load`) and counts zero transformations for it, so the
folding evaluation never divides or takes modulo by zero. -/
theorem C1_folding_skips_zero_divide (f : TACFunction) (n : Nat) (i : TACInstr)
    (hget : f.instrs[n]? = some i)
    (hz : (i.opcode = .div ∧ (i.arg2 = .int_const 0 ∨ i.arg2 = .float_const 0)) ∨
          (i.opcode = .mod ∧ i.arg2 = .int_const 0)) :
    (opt_constant_folding f).1.instrs[n]? = some i ∧ (fold_instr i).2 = 0 := by
  have h := fold_instr_zero_divisor i hz
  constructor
  · show (f.instrs.map (fun j => (fold_instr j).1))[n]? = some i
    rw [List.getElem?_map, hget]
    simp [h]
  · rw [h]

/-- Witness for C1: a function whose single instruction divides the
constant 1 by the constant 0; folding leaves it untouched. -/
theorem C1_folding_skips_zero_divide_witness :
    (opt_constant_folding
        { name := Option.none, return_type := DataType.nothing,
          param_names := [], param_types := [],
          instrs := [⟨TACOpcode.div, TACOperand.temp 0 DataType.number,
                       TACOperand.int_const 1, TACOperand.int_const 0,
                       TACOperand.none, false⟩],
          instr_count := 1 }).1.instrs[0]? =
      some ⟨TACOpcode.div, TACOperand.temp 0 DataType.number,
            TACOperand.int_const 1, TACOperand.int_const 0,
            TACOperand.none, false⟩ :=
  (C1_folding_skips_zero_divide _ 0 _ (by decide)
    (Or.inl ⟨rfl, Or.inl rfl⟩)).1

/-! ## Pass 2: constant propagation (`opt_constant_propagation`) -/

/-- Entry of the propagation table (`ConstEntry` in optimizer.c).  The C
table is a module-level array of capacity `MAX_CONSTS = 4096`, cleared at
the start of every pass invocation, so it is per-invocation state. -/
structure ConstEntry where
  temp_id : Int
  value : TACOperand
  valid : Bool
deriving DecidableEq, Repr

/-- `const_table_set`: update the first entry with this `temp_id` (valid
or not), else append if below capacity. -/
def const_table_update_first (tid : Int) (v : TACOperand) :
    List ConstEntry → List ConstEntry
  | [] => []
  | e :: rest =>
      if e.temp_id = tid then { e with value := v, valid := true } :: rest
      else e :: const_table_update_first tid v rest

/-- `const_table_set` from optimizer.c. -/
def const_table_set (tbl : List ConstEntry) (tid : Int) (v : TACOperand) :
    List ConstEntry :=
  if tbl.any (fun e => e.temp_id = tid) then const_table_update_first tid v tbl
  else if tbl.length < 4096 then tbl ++ [⟨tid, v, true⟩]
  else tbl

/-- `const_table_invalidate` from optimizer.c (first entry only, as the C
loop returns after the first hit). -/
def const_table_invalidate (tid : Int) : List ConstEntry → List ConstEntry
  | [] => []
  | e :: rest =>
      if e.temp_id = tid then { e with valid := false } :: rest
      else e :: const_table_invalidate tid rest

/-- `const_table_get` from optimizer.c. -/
def const_table_get (tbl : List ConstEntry) (tid : Int) : Option TACOperand :=
  match tbl.find? (fun e => e.temp_id = tid && e.valid) with
  | some e => some e.value
  | Option.none => Option.none

/-- `try_propagate` from optimizer.c: replace a temp operand whose value
is known; returns the (possibly new) operand and whether it changed. -/
def try_propagate (op : TACOperand) (tbl : List ConstEntry) : TACOperand × Bool :=
  match op with
  | .temp tid _ =>
      match const_table_get tbl tid with
      | some (.int_const v) => (.int_const v, true)
      | some (.float_const v) => (.float_const v, true)
      | some (.bool_const v) => (.bool_const v, true)
      | some _ => (op, false)
      | Option.none => (op, false)
  | _ => (op, false)

/-- One iteration of the `opt_constant_propagation` loop
(optimizer.c:404-466): skip dead instructions; clear the table on basic
block boundaries (`Label`, `FuncBegin`, `Call`); record `Load*` into a
temp and move on; otherwise propagate into `arg1`/`arg2` and finally
invalidate the table entry of a temp result. -/
def prop_instr (tbl : List ConstEntry) (i : TACInstr) :
    TACInstr × List ConstEntry × Nat :=
  if i.is_dead then (i, tbl, 0)
  else if i.opcode = .label ∨ i.opcode = .func_begin ∨ i.opcode = .call then
    (i, [], 0)
  else if is_temp i.result ∧
          (i.opcode = .load_int ∨ i.opcode = .load_float ∨ i.opcode = .load_bool) then
    let tbl' :=
      match i.opcode, i.result, i.arg1 with
      | .load_int, .temp tid _, .int_const v => const_table_set tbl tid (.int_const v)
      | .load_float, .temp tid _, .float_const v => const_table_set tbl tid (.float_const v)
      | .load_bool, .temp tid _, .bool_const v => const_table_set tbl tid (.bool_const v)
      | _, _, _ => tbl
    (i, tbl', 0)
  else
    let (a1, c1) := try_propagate i.arg1 tbl
    let (a2, c2) := try_propagate i.arg2 tbl
    let tbl' :=
      match i.result with
      | .temp tid _ => const_table_invalidate tid tbl
      | _ => tbl
    ({ i with arg1 := a1, arg2 := a2 }, tbl',
     (if c1 then 1 else 0) + (if c2 then 1 else 0))

/-- The instruction walk of Pass 2, threading the constant table. -/
def prop_go (tbl : List ConstEntry) : List TACInstr → List TACInstr × Nat
  | [] => ([], 0)
  | i :: rest =>
      let r := prop_instr tbl i
      let rr := prop_go r.2.1 rest
      (r.1 :: rr.1, r.2.2 + rr.2)

/-- Pass 2, `opt_constant_propagation` (optimizer.c:398-469). -/
def opt_constant_propagation (func : TACFunction) : TACFunction × Nat :=
  let (l, c) := prop_go [] func.instrs
  ({ func with instrs := l }, c)

/-! ## Pass 3: algebraic simplification -/

/-- The `a*_zero` tests of `opt_algebraic_simplification`:
`(is_int_const && int_val == 0) || (is_float_const && float_val == 0.0)`. -/
def is_zero_const : TACOperand → Bool
  | .int_const v => v = 0
  | .float_const v => v = 0
  | _ => false

/-- The `a*_one` tests of `opt_algebraic_simplification`. -/
def is_one_const : TACOperand → Bool
  | .int_const v => v = 1
  | .float_const v => v = 1
  | _ => false

/-- `convert_to_assign` (optimizer.c:160-167): rewrite the instruction in
place into `result = src`.  In C the source operand is deep-copied before
the old `arg1`/`arg2` payloads are released; in a value semantics the
operand value is simply kept.  `arg3` is untouched. -/
def convert_to_assign (i : TACInstr) (src : TACOperand) : TACInstr :=
  { i with opcode := .assign, arg1 := src, arg2 := .none }

/-- One iteration of the `opt_algebraic_simplification` loop
(optimizer.c:485-585). -/
def alg_instr (i : TACInstr) : TACInstr × Nat :=
  if i.is_dead then (i, 0)
  else
    let a1 := i.arg1
    let a2 := i.arg2
    match i.opcode with
    | .add =>
        if is_zero_const a2 then (convert_to_assign i a1, 1)
        else if is_zero_const a1 then (convert_to_assign i a2, 1)
        else (i, 0)
    | .sub =>
        if is_zero_const a2 then (convert_to_assign i a1, 1)
        else if same_temp a1 a2 then
          ({ i with opcode := .load_int, arg1 := .int_const 0, arg2 := .none }, 1)
        else (i, 0)
    | .mul =>
        if is_zero_const a1 || is_zero_const a2 then
          ({ i with opcode := .load_int, arg1 := .int_const 0, arg2 := .none }, 1)
        else if is_one_const a2 then (convert_to_assign i a1, 1)
        else if is_one_const a1 then (convert_to_assign i a2, 1)
        else (i, 0)
    | .div =>
        if is_one_const a2 then (convert_to_assign i a1, 1) else (i, 0)
    | .pow =>
        if is_zero_const a2 then
          ({ i with opcode := .load_int, arg1 := .int_const 1, arg2 := .none }, 1)
        else if is_one_const a2 then (convert_to_assign i a1, 1)
        else (i, 0)
    | _ => (i, 0)

/-- Pass 3, `opt_algebraic_simplification` (optimizer.c:481-588). -/
def opt_algebraic_simplification (func : TACFunction) : TACFunction × Nat :=
  ({ func with instrs := func.instrs.map (fun i => (alg_instr i).1) },
   (func.instrs.map (fun i => (alg_instr i).2)).sum)

/-! ## Pass 4: strength reduction -/

/-- The `x*2 → x+x` block of `opt_strength_reduction`
(optimizer.c:616-631); the duplicated operand is a deep copy in C, the
same value here. -/
def str_mul_step (i : TACInstr) : TACInstr × Nat :=
  if i.opcode = .mul then
    if i.arg2 = .int_const 2 then ({ i with opcode := .add, arg2 := i.arg1 }, 1)
    else if i.arg1 = .int_const 2 then ({ i with opcode := .add, arg1 := i.arg2 }, 1)
    else (i, 0)
  else (i, 0)

/-- The `pow(x,2) → x*x` block of `opt_strength_reduction`
(optimizer.c:634-641); higher powers are left alone. -/
def str_pow_step (i : TACInstr) : TACInstr × Nat :=
  if i.opcode = .pow ∧ i.arg2 = .int_const 2 then
    ({ i with opcode := .mul, arg2 := i.arg1 }, 1)
  else (i, 0)

/-- One iteration of the `opt_strength_reduction` loop: the two blocks in
sequence on a non-dead instruction. -/
def str_instr (i : TACInstr) : TACInstr × Nat :=
  if i.is_dead then (i, 0)
  else
    let (i1, c1) := str_mul_step i
    let (i2, c2) := str_pow_step i1
    (i2, c1 + c2)

/-- Pass 4, `opt_strength_reduction` (optimizer.c:608-647). -/
def opt_strength_reduction (func : TACFunction) : TACFunction × Nat :=
  ({ func with instrs := func.instrs.map (fun i => (str_instr i).1) },
   (func.instrs.map (fun i => (str_instr i).2)).sum)

/-! ## Pass 5: redundant load elimination -/

/-- One entry of the `recent` table in `opt_redundant_load_elimination`
(capacity `MAX_RECENT = 256`).  In C the three value fields are written
selectively depending on the opcode and the others stay uninitialized;
they are read back only under the same opcode, so defaulting the unused
ones is faithful. -/
structure RecentLoad where
  opcode : TACOpcode
  rec_int_val : Int
  rec_float_val : Rat
  rec_bool_val : Bool
  temp_id : Int
  data_type : DataType
  valid : Bool
deriving DecidableEq, Repr

/-- The match test inside the `recent` search loop (optimizer.c:694-714). -/
def recent_matches (r : RecentLoad) (i : TACInstr) : Bool :=
  if ¬r.valid then false
  else if r.opcode ≠ i.opcode then false
  else
    match i.opcode, i.arg1 with
    | .load_int, .int_const v => r.rec_int_val = v
    | .load_float, .float_const v => r.rec_float_val = v
    | .load_bool, .bool_const v => r.rec_bool_val = v
    | _, _ => false

/-- Recording a load into the `recent` table (optimizer.c:731-743);
appended at the end, only when below capacity.  The value fields use the
union-read convention of `int_val`. -/
def rle_record (recent : List RecentLoad) (i : TACInstr) : List RecentLoad :=
  match i.result with
  | .temp tid dt =>
      if recent.length < 256 then
        recent ++ [⟨i.opcode,
          (if i.opcode = .load_int then int_val i.arg1 else 0),
          (if i.opcode = .load_float then
            (match i.arg1 with | .float_const v => v | _ => 0) else 0),
          (if i.opcode = .load_bool then bool_val i.arg1 else false),
          tid, dt, true⟩]
      else recent
  | _ => recent

/-- One iteration of the `opt_redundant_load_elimination` loop
(optimizer.c:676-746): reset the table on control flow; on a `Load*` into
a temp, either rewrite it into an assignment from the first matching
earlier temp, or record it. -/
def rle_instr (recent : List RecentLoad) (i : TACInstr) :
    TACInstr × List RecentLoad × Nat :=
  if i.is_dead then (i, recent, 0)
  else if i.opcode = .label ∨ i.opcode = .func_begin ∨ i.opcode = .call ∨
          i.opcode = .goto ∨ i.opcode = .if_goto ∨ i.opcode = .if_false_goto then
    (i, [], 0)
  else if is_temp i.result ∧
          (i.opcode = .load_int ∨ i.opcode = .load_float ∨ i.opcode = .load_bool) then
    match recent.find? (fun r => recent_matches r i) with
    | some r =>
        let src := TACOperand.temp r.temp_id r.data_type
        ({ i with opcode := .assign, arg1 := src, arg2 := .none }, recent, 1)
    | Option.none => (i, rle_record recent i, 0)
  else (i, recent, 0)

/-- The instruction walk of Pass 5, threading the `recent` table. -/
def rle_go (recent : List RecentLoad) : List TACInstr → List TACInstr × Nat
  | [] => ([], 0)
  | i :: rest =>
      let r := rle_instr recent i
      let rr := rle_go r.2.1 rest
      (r.1 :: rr.1, r.2.2 + rr.2)

/-- Pass 5, `opt_redundant_load_elimination` (optimizer.c:659-750). -/
def opt_redundant_load_elimination (func : TACFunction) : TACFunction × Nat :=
  let (l, c) := rle_go [] func.instrs
  ({ func with instrs := l }, c)

/-! ## Pass 6: dead code elimination -/

/-- `has_side_effect` from optimizer.c (the never-eliminable opcodes). -/
def has_side_effect : TACOpcode → Bool
  | .display | .read | .ask
  | .call | .param
  | .ret | .goto
  | .if_goto | .if_false_goto
  | .label
  | .func_begin | .func_end
  | .scope_begin | .scope_end
  | .secure_begin | .secure_end
  | .decl
  | .break_op | .continue_op
  | .list_append | .list_set => true
  | _ => false

/-- Does this instruction use the temp `tid` in any of its three source
operands? -/
def uses_temp (i : TACInstr) (tid : Int) : Bool :=
  (match i.arg1 with | .temp t _ => decide (t = tid) | _ => false) ||
  (match i.arg2 with | .temp t _ => decide (t = tid) | _ => false) ||
  (match i.arg3 with | .temp t _ => decide (t = tid) | _ => false)

/-- Is `tid` used by some non-dead instruction of `l`? -/
def temp_used_in (l : List TACInstr) (tid : Int) : Bool :=
  l.any (fun j => !j.is_dead && uses_temp j tid)

/-- The `temp_id` union read, same convention as `int_val`. -/
def temp_id_of : TACOperand → Int
  | .temp t _ => t
  | _ => 0

/-- `is var` test for the redundant `ASSIGN`-to-var guard of the DCE loop
(unreachable after the `is_temp` check, kept for fidelity). -/
def is_var_operand : TACOperand → Bool
  | .var _ _ => true
  | _ => false

/-- The instruction walk of Pass 6 (`opt_dead_code_elimination`,
optimizer.c:815-841).  `processed` is the already-visited prefix in
reverse (the `prev` chain, carrying the marks made earlier in this pass);
`temp_is_used_after` scans both the instructions after (`rest`) and
before (`processed`) the current one, skipping dead instructions. -/
def dce_go (processed : List TACInstr) : List TACInstr → List TACInstr × Nat
  | [] => (processed.reverse, 0)
  | i :: rest =>
      if i.is_dead ∨ has_side_effect i.opcode = true ∨ is_temp i.result = false ∨
         (i.opcode = .assign ∧ is_var_operand i.result = true) ∨
         temp_used_in rest (temp_id_of i.result) = true ∨
         temp_used_in processed (temp_id_of i.result) = true then
        dce_go (i :: processed) rest
      else
        let r := dce_go ({ i with is_dead := true } :: processed) rest
        (r.1, r.2 + 1)

/-- Pass 6, `opt_dead_code_elimination` (optimizer.c:815-841): mark dead
every non-side-effecting instruction writing a temp that no live
instruction (before or after it) reads. -/
def opt_dead_code_elimination (func : TACFunction) : TACFunction × Nat :=
  let (l, c) := dce_go [] func.instrs
  ({ func with instrs := l }, c)

/-! ## Sweep and driver -/

/-- `opt_sweep_dead` (optimizer.c:847-889): unlink every instruction with
`is_dead` set, decrementing `instr_count` once per removal.  Operand and
node deallocation is memory management with no observable effect here. -/
def opt_sweep_dead (func : TACFunction) : TACFunction × Nat :=
  let removed := (func.instrs.filter (fun i => i.is_dead)).length
  let kept := func.instrs.filter (fun i => !i.is_dead)
  ({ func with instrs := kept, instr_count := func.instr_count - removed }, removed)

/-- Optimization levels (`OptLevel` in optimizer.h). -/
inductive OptLevel where
  | level_0
  | level_1
  | level_2
deriving DecidableEq, Repr

/-- `OptOptions`: the level, one enable flag per pass, and verbosity. -/
structure OptOptions where
  level : OptLevel
  constant_folding : Bool
  constant_propagation : Bool
  dead_code_elimination : Bool
  algebraic_simplification : Bool
  strength_reduction : Bool
  redundant_load_elimination : Bool
  verbose : Bool
deriving DecidableEq, Repr

/-- `opt_default_options` (optimizer.c:896-921): level 0 enables nothing,
level 1 folding + DCE, level 2 all six passes. -/
def opt_default_options (level : OptLevel) : OptOptions :=
  match level with
  | .level_0 => ⟨.level_0, false, false, false, false, false, false, false⟩
  | .level_1 => ⟨.level_1, true, false, true, false, false, false, false⟩
  | .level_2 => ⟨.level_2, true, true, true, true, true, true, false⟩

/-- One iteration of the driver loop in `optimize_function`
(optimizer.c:936-984): the enabled passes in the fixed order propagation,
folding, algebraic, strength, redundant-load, DCE; `changes` is the sum
of their transformation counts.  (The `OptStats` counters are running
sums of the same numbers and are not separately modelled.) -/
def run_passes (opts : OptOptions) (func : TACFunction) : TACFunction × Nat :=
  let (f1, c1) :=
    if opts.constant_propagation then opt_constant_propagation func else (func, 0)
  let (f2, c2) := if opts.constant_folding then opt_constant_folding f1 else (f1, 0)
  let (f3, c3) :=
    if opts.algebraic_simplification then opt_algebraic_simplification f2 else (f2, 0)
  let (f4, c4) :=
    if opts.strength_reduction then opt_strength_reduction f3 else (f3, 0)
  let (f5, c5) :=
    if opts.redundant_load_elimination then opt_redundant_load_elimination f4
    else (f4, 0)
  let (f6, c6) :=
    if opts.dead_code_elimination then opt_dead_code_elimination f5 else (f5, 0)
  (f6, c1 + c2 + c3 + c4 + c5 + c6)

/-- The `for (iter = 0; iter < max_iterations; iter++)` loop of
`optimize_function` with `max_iterations = 10`: run the passes, stop as
soon as an iteration reports zero transformations or the fuel runs out. -/
def opt_loop (opts : OptOptions) : Nat → TACFunction → TACFunction
  | 0, f => f
  | fuel + 1, f =>
      let (f', changes) := run_passes opts f
      if changes = 0 then f' else opt_loop opts fuel f'

/-- `optimize_function` (optimizer.c:931-988): the bounded fixpoint loop
followed by the dead-instruction sweep. -/
def optimize_function (opts : OptOptions) (func : TACFunction) : TACFunction :=
  (opt_sweep_dead (opt_loop opts 10 func)).1

/-! ## Claim C2 -/

/-- The state of the function after `k` iterations of the driver loop. -/
def iter_state (opts : OptOptions) (func : TACFunction) : Nat → TACFunction
  | 0 => func
  | k + 1 => (run_passes opts (iter_state opts func k)).1

theorem iter_state_shift (opts : OptOptions) (func : TACFunction) (j : Nat) :
    iter_state opts func (j + 1) = iter_state opts (run_passes opts func).1 j := by
  induction j with
  | zero => rfl
  | succ n ih =>
      show (run_passes opts (iter_state opts func (n + 1))).1 = _
      rw [ih]
      rfl

theorem opt_loop_spec (opts : OptOptions) :
    ∀ (fuel : Nat) (f : TACFunction), 1 ≤ fuel →
      ∃ k, 1 ≤ k ∧ k ≤ fuel ∧ opt_loop opts fuel f = iter_state opts f k ∧
        (∀ j, j + 1 < k → (run_passes opts (iter_state opts f j)).2 ≠ 0) ∧
        (k = fuel ∨ (run_passes opts (iter_state opts f (k - 1))).2 = 0) := by
  intro fuel
  induction fuel with
  | zero => intro f h; omega
  | succ m ih =>
      intro f _
      by_cases hc : (run_passes opts f).2 = 0
      · refine ⟨1, le_refl 1, by omega, ?_, ?_, Or.inr ?_⟩
        · show opt_loop opts (m + 1) f = iter_state opts f 1
          unfold opt_loop
          simp [hc, iter_state]
        · intro j hj; omega
        · simpa [iter_state] using hc
      · cases m with
        | zero =>
            refine ⟨1, le_refl 1, le_refl 1, ?_, ?_, Or.inl rfl⟩
            · show opt_loop opts 1 f = iter_state opts f 1
              unfold opt_loop
              simp [hc, iter_state, opt_loop]
            · intro j hj; omega
        | succ m' =>
            obtain ⟨k', h1, h2, h3, h4, h5⟩ := ih (run_passes opts f).1 (by omega)
            refine ⟨k' + 1, by omega, by omega, ?_, ?_, ?_⟩
            · show opt_loop opts (m' + 1 + 1) f = _
              unfold opt_loop
              simp only [hc, if_false]
              rw [h3, ← iter_state_shift]
            · intro j hj
              cases j with
              | zero => simpa [iter_state] using hc
              | succ j' =>
                  rw [iter_state_shift]
                  exact h4 j' (by omega)
            · rcases h5 with h | h
              · exact Or.inl (by omega)
              · right
                have hk : k' + 1 - 1 = (k' - 1) + 1 := by omega
                rw [hk, iter_state_shift]
                exact h

/-- C2: for every TAC function and options, the optimizer driver iterates
the enabled passes and stops at the first full iteration that performs
zero transformations, or after at most 10 iterations, whichever comes
first; only after that loop does it run the dead-instruction sweep: the
result is the sweep of the `k`-th iterate, where every iteration before
the stopping one reported a nonzero transformation count and the last one
either reported zero or was the 10th. -/
theorem C2_driver_fixpoint_then_sweep (opts : OptOptions) (func : TACFunction) :
    ∃ k, 1 ≤ k ∧ k ≤ 10 ∧
      optimize_function opts func = (opt_sweep_dead (iter_state opts func k)).1 ∧
      (∀ j, j + 1 < k → (run_passes opts (iter_state opts func j)).2 ≠ 0) ∧
      (k = 10 ∨ (run_passes opts (iter_state opts func (k - 1))).2 = 0) := by
  obtain ⟨k, h1, h2, h3, h4, h5⟩ := opt_loop_spec opts 10 func (by omega)
  exact ⟨k, h1, h2, by rw [optimize_function, h3], h4, h5⟩

/-! ## Claim C3 -/

/-- Number of instructions not marked dead. -/
def live_count (l : List TACInstr) : Nat := l.countP (fun i => !i.is_dead)

theorem fold_binary_step_dead (i : TACInstr) :
    ((fold_binary_step i).1).is_dead = i.is_dead := by
  unfold fold_binary_step
  split
  · dsimp only
    split <;> rfl
  · rfl

theorem fold_neg_step_dead (i : TACInstr) :
    ((fold_neg_step i).1).is_dead = i.is_dead := by
  unfold fold_neg_step
  split
  · split
    · split <;> rfl
    · rfl
  · rfl

theorem fold_not_step_dead (i : TACInstr) :
    ((fold_not_step i).1).is_dead = i.is_dead := by
  unfold fold_not_step
  split <;> rfl

theorem fold_and_or_step_dead (i : TACInstr) :
    ((fold_and_or_step i).1).is_dead = i.is_dead := by
  unfold fold_and_or_step
  split <;> rfl

theorem fold_instr_dead (i : TACInstr) :
    ((fold_instr i).1).is_dead = i.is_dead := by
  unfold fold_instr
  split
  · rfl
  · rw [fold_and_or_step_dead, fold_not_step_dead, fold_neg_step_dead,
      fold_binary_step_dead]

theorem alg_instr_dead (i : TACInstr) :
    ((alg_instr i).1).is_dead = i.is_dead := by
  unfold alg_instr
  split
  · rfl
  · dsimp only
    split <;> (repeat' split) <;> rfl

theorem str_instr_dead (i : TACInstr) :
    ((str_instr i).1).is_dead = i.is_dead := by
  unfold str_instr str_mul_step str_pow_step
  split
  · rfl
  · dsimp only
    split <;> (repeat' split) <;> rfl

theorem prop_instr_dead (tbl : List ConstEntry) (i : TACInstr) :
    ((prop_instr tbl i).1).is_dead = i.is_dead := by
  unfold prop_instr
  split
  · rfl
  · split
    · rfl
    · split <;> rfl

theorem rle_instr_dead (recent : List RecentLoad) (i : TACInstr) :
    ((rle_instr recent i).1).is_dead = i.is_dead := by
  unfold rle_instr
  split
  · rfl
  · split
    · rfl
    · split
      · split <;> rfl
      · rfl

theorem live_count_map_of_dead {g : TACInstr → TACInstr}
    (hg : ∀ i, (g i).is_dead = i.is_dead) (l : List TACInstr) :
    live_count (l.map g) = live_count l := by
  induction l with
  | nil => rfl
  | cons x xs ih =>
      simp only [live_count, List.map_cons, List.countP_cons, hg] at *
      omega

theorem prop_go_shape (tbl : List ConstEntry) (l : List TACInstr) :
    (prop_go tbl l).1.length = l.length ∧
      live_count (prop_go tbl l).1 = live_count l := by
  induction l generalizing tbl with
  | nil => exact ⟨rfl, rfl⟩
  | cons x xs ih =>
      obtain ⟨hlen, hlive⟩ := ih (prop_instr tbl x).2.1
      refine ⟨?_, ?_⟩
      · simpa [prop_go] using hlen
      · unfold live_count at hlive ⊢
        simp only [prop_go, List.countP_cons, prop_instr_dead]
        omega

theorem rle_go_shape (recent : List RecentLoad) (l : List TACInstr) :
    (rle_go recent l).1.length = l.length ∧
      live_count (rle_go recent l).1 = live_count l := by
  induction l generalizing recent with
  | nil => exact ⟨rfl, rfl⟩
  | cons x xs ih =>
      obtain ⟨hlen, hlive⟩ := ih (rle_instr recent x).2.1
      refine ⟨?_, ?_⟩
      · simpa [rle_go] using hlen
      · unfold live_count at hlive ⊢
        simp only [rle_go, List.countP_cons, rle_instr_dead]
        omega

theorem dce_go_shape (acc : List TACInstr) (l : List TACInstr) :
    (dce_go acc l).1.length = acc.length + l.length ∧
      live_count (dce_go acc l).1 ≤ live_count acc + live_count l := by
  induction l generalizing acc with
  | nil =>
      refine ⟨by simp [dce_go], ?_⟩
      simp [dce_go, live_count, List.countP_reverse]
  | cons x xs ih =>
      unfold dce_go
      split
      · obtain ⟨hlen, hlive⟩ := ih (x :: acc)
        refine ⟨?_, ?_⟩
        · simp only [List.length_cons] at hlen ⊢
          omega
        · unfold live_count at hlive ⊢
          simp only [List.countP_cons] at hlive ⊢
          omega
      · obtain ⟨hlen, hlive⟩ := ih ({ x with is_dead := true } :: acc)
        refine ⟨?_, ?_⟩
        · simp only [List.length_cons] at hlen ⊢
          omega
        · unfold live_count at hlive ⊢
          simp only [List.countP_cons] at hlive ⊢
          simp only [Bool.not_true, Bool.false_eq_true, if_false] at hlive
          omega

/-- C3: no single optimization pass adds or removes instructions: each of
the six passes leaves the length of the instruction list and the
`instr_count` field unchanged (each pass only rewrites the instruction at
each position in place, so order is position-wise preserved), and the
number of instructions with `is_dead` false after the pass is at most the
number before it (equal for all passes except dead-code elimination,
which only marks).  Physical deletion happens only in `opt_sweep_dead`. -/
theorem C3_passes_preserve_instruction_layout (f : TACFunction) :
    ((opt_constant_folding f).1.instrs.length = f.instrs.length ∧
      (opt_constant_folding f).1.instr_count = f.instr_count ∧
      live_count (opt_constant_folding f).1.instrs ≤ live_count f.instrs) ∧
    ((opt_constant_propagation f).1.instrs.length = f.instrs.length ∧
      (opt_constant_propagation f).1.instr_count = f.instr_count ∧
      live_count (opt_constant_propagation f).1.instrs ≤ live_count f.instrs) ∧
    ((opt_algebraic_simplification f).1.instrs.length = f.instrs.length ∧
      (opt_algebraic_simplification f).1.instr_count = f.instr_count ∧
      live_count (opt_algebraic_simplification f).1.instrs ≤ live_count f.instrs) ∧
    ((opt_strength_reduction f).1.instrs.length = f.instrs.length ∧
      (opt_strength_reduction f).1.instr_count = f.instr_count ∧
      live_count (opt_strength_reduction f).1.instrs ≤ live_count f.instrs) ∧
    ((opt_redundant_load_elimination f).1.instrs.length = f.instrs.length ∧
      (opt_redundant_load_elimination f).1.instr_count = f.instr_count ∧
      live_count (opt_redundant_load_elimination f).1.instrs ≤ live_count f.instrs) ∧
    ((opt_dead_code_elimination f).1.instrs.length = f.instrs.length ∧
      (opt_dead_code_elimination f).1.instr_count = f.instr_count ∧
      live_count (opt_dead_code_elimination f).1.instrs ≤ live_count f.instrs) := by
  refine ⟨⟨?_, rfl, ?_⟩, ⟨?_, rfl, ?_⟩, ⟨?_, rfl, ?_⟩, ⟨?_, rfl, ?_⟩,
    ⟨?_, rfl, ?_⟩, ⟨?_, rfl, ?_⟩⟩
  · exact List.length_map _ _
  · exact le_of_eq (live_count_map_of_dead fold_instr_dead f.instrs)
  · exact (prop_go_shape [] f.instrs).1
  · exact le_of_eq (prop_go_shape [] f.instrs).2
  · exact List.length_map _ _
  · exact le_of_eq (live_count_map_of_dead alg_instr_dead f.instrs)
  · exact List.length_map _ _
  · exact le_of_eq (live_count_map_of_dead str_instr_dead f.instrs)
  · exact (rle_go_shape [] f.instrs).1
  · exact le_of_eq (rle_go_shape [] f.instrs).2
  · simpa using (dce_go_shape [] f.instrs).1
  · simpa [live_count] using (dce_go_shape [] f.instrs).2

/-! ## Claim C4 -/

/-- The exact set of binary instructions on two numeric constants that
`opt_constant_folding` declines to fold: division by a zero constant
(`b == 0.0`), modulo whose operands are not both integer constants or
whose integer divisor is zero, and `And`/`Or` (whose numeric-constant
case falls into the `default: folded = false` arm of the switch). -/
def fold_exception (i : TACInstr) : Prop :=
  (i.opcode = .div ∧ get_numeric_value i.arg2 = 0) ∨
  (i.opcode = .mod ∧
    (¬(is_int_const i.arg1 = true ∧ is_int_const i.arg2 = true) ∨
      i.arg2 = .int_const 0)) ∨
  i.opcode = .and ∨ i.opcode = .or

instance (i : TACInstr) : Decidable (fold_exception i) := by
  unfold fold_exception
  infer_instance

/-- An instruction is fold-complete when, if it is a binary operation on
two numeric constants, it belongs to the exception set above. -/
def fold_complete (i : TACInstr) : Prop :=
  is_binary_op i.opcode = true → is_numeric_const i.arg1 = true →
    is_numeric_const i.arg2 = true → fold_exception i

/-- Instructions whose opcode is one of the rewrite targets of the passes
(`Load*`, `Assign`, `Add`, `Mul` with a non-constant operand, …) that are
not binary are trivially fold-complete. -/
theorem fold_complete_of_opcode (i : TACInstr)
    (h : i.opcode = .load_int ∨ i.opcode = .load_float ∨ i.opcode = .load_bool ∨
      i.opcode = .assign) : fold_complete i := by
  intro hb _ _
  rcases h with h | h | h | h <;> rw [h] at hb <;> simp [is_binary_op] at hb

theorem fold_binary_eval_not_folded {i : TACInstr}
    (hb : is_binary_op i.opcode = true)
    (he : fold_binary_eval i.opcode (get_numeric_value i.arg1)
        (get_numeric_value i.arg2) (is_int_const i.arg1 && is_int_const i.arg2)
        (int_val i.arg1) (int_val i.arg2) = .not_folded) :
    fold_exception i := by
  have hops : i.opcode = .add ∨ i.opcode = .sub ∨ i.opcode = .mul ∨
      i.opcode = .div ∨ i.opcode = .mod ∨ i.opcode = .pow ∨ i.opcode = .eq ∨
      i.opcode = .neq ∨ i.opcode = .lt ∨ i.opcode = .gt ∨ i.opcode = .lte ∨
      i.opcode = .gte ∨ i.opcode = .and ∨ i.opcode = .or := by
    cases h : i.opcode <;> simp [is_binary_op, h] at hb ⊢
  rcases hops with hop | hop | hop | hop | hop | hop | hop | hop |
    hop | hop | hop | hop | hop | hop
  -- Div: the fold is skipped exactly when the divisor value is zero
  case inr.inr.inr.inl =>
      rw [hop] at he
      simp only [fold_binary_eval] at he
      by_cases hz : get_numeric_value i.arg2 = 0
      · exact Or.inl ⟨hop, hz⟩
      · rw [if_neg hz] at he
        split at he <;> simp at he
  -- Mod: skipped when the operands are not both ints or the divisor is 0
  case inr.inr.inr.inr.inl =>
      rw [hop] at he
      simp only [fold_binary_eval] at he
      by_cases hbi : (is_int_const i.arg1 && is_int_const i.arg2) = true
      · rw [if_pos hbi] at he
        have hib : int_val i.arg2 = 0 := by
          by_contra hnz
          rw [if_neg hnz] at he
          exact FoldOutcome.noConfusion he
        have harg2 : i.arg2 = .int_const 0 := by
          have h2i : is_int_const i.arg2 = true := by
            rw [Bool.and_eq_true] at hbi
            exact hbi.2
          cases harg : i.arg2 <;> rw [harg] at h2i <;>
            simp only [is_int_const, Bool.false_eq_true] at h2i
          rw [harg] at hib
          simp only [int_val] at hib
          rw [hib]
        exact Or.inr (Or.inl ⟨hop, Or.inr harg2⟩)
      · refine Or.inr (Or.inl ⟨hop, Or.inl ?_⟩)
        intro hand
        rw [Bool.and_eq_true] at hbi
        exact hbi hand
  -- And / Or: the default arm of the C switch, always in the exception set
  case inr.inr.inr.inr.inr.inr.inr.inr.inr.inr.inr.inr.inl =>
      exact Or.inr (Or.inr (Or.inl hop))
  case inr.inr.inr.inr.inr.inr.inr.inr.inr.inr.inr.inr.inr =>
      exact Or.inr (Or.inr (Or.inr hop))
  -- All other binary opcodes always fold, contradicting `he`
  all_goals
    exfalso
    rw [hop] at he
    simp only [fold_binary_eval] at he
    first
      | (split at he <;> simp at he)
      | simp at he

/-- After the binary-constant block of Pass 1, every instruction is
fold-complete: either it was folded into a load, or it was left alone
because it is in the exception set (or was never a binary op on two
numeric constants at all). -/
theorem fold_binary_step_complete (i : TACInstr) :
    fold_complete ((fold_binary_step i).1) := by
  unfold fold_binary_step
  split
  case isTrue hcond =>
      dsimp only
      split
      case h_1 heq =>
          intro _ _ _
          exact fold_binary_eval_not_folded hcond.1 heq
      case h_2 v heq => exact fold_complete_of_opcode _ (Or.inl rfl)
      case h_3 v heq => exact fold_complete_of_opcode _ (Or.inr (Or.inl rfl))
      case h_4 v heq => exact fold_complete_of_opcode _ (Or.inr (Or.inr (Or.inl rfl)))
  case isFalse hcond =>
      intro hb h1 h2
      exact absurd ⟨hb, h1, h2⟩ hcond

theorem fold_neg_step_complete (i : TACInstr) (h : fold_complete i) :
    fold_complete ((fold_neg_step i).1) := by
  unfold fold_neg_step
  split
  · split
    · split
      · exact fold_complete_of_opcode _ (Or.inl rfl)
      · exact fold_complete_of_opcode _ (Or.inr (Or.inl rfl))
      · exact h
    · exact h
  · exact h

theorem fold_not_step_complete (i : TACInstr) (h : fold_complete i) :
    fold_complete ((fold_not_step i).1) := by
  unfold fold_not_step
  split
  · exact fold_complete_of_opcode _ (Or.inr (Or.inr (Or.inl rfl)))
  · exact h

theorem fold_and_or_step_complete (i : TACInstr) (h : fold_complete i) :
    fold_complete ((fold_and_or_step i).1) := by
  unfold fold_and_or_step
  split
  · exact fold_complete_of_opcode _ (Or.inr (Or.inr (Or.inl rfl)))
  · exact h

theorem fold_instr_complete (i : TACInstr) (hd : i.is_dead = false) :
    fold_complete ((fold_instr i).1) := by
  unfold fold_instr
  rw [if_neg (by simp [hd])]
  exact fold_and_or_step_complete _ (fold_not_step_complete _
    (fold_neg_step_complete _ (fold_binary_step_complete i)))

/-- Every non-dead instruction of the list is fold-complete. -/
def live_good (l : List TACInstr) : Prop :=
  ∀ i ∈ l, i.is_dead = false → fold_complete i

theorem opt_constant_folding_live_good (f : TACFunction) :
    live_good (opt_constant_folding f).1.instrs := by
  intro j hj hlive
  simp only [opt_constant_folding, List.mem_map] at hj
  obtain ⟨i, _, rfl⟩ := hj
  have hd : i.is_dead = false := by rw [← fold_instr_dead i]; exact hlive
  exact fold_instr_complete i hd

theorem alg_instr_complete (i : TACInstr) (h : fold_complete i) :
    fold_complete ((alg_instr i).1) := by
  unfold alg_instr
  split
  · exact h
  · dsimp only
    split <;> (repeat' split) <;>
      first
        | exact h
        | exact fold_complete_of_opcode _ (Or.inr (Or.inr (Or.inr rfl)))
        | exact fold_complete_of_opcode _ (Or.inl rfl)

theorem str_mul_step_complete (i : TACInstr) (h : fold_complete i) :
    fold_complete ((str_mul_step i).1) := by
  unfold str_mul_step
  split
  case isTrue hmul =>
      split
      case isTrue h2 =>
          intro hb hn1 hn2
          exfalso
          have hexc := h (by rw [hmul]; rfl) (by simpa using hn1)
            (by rw [h2]; rfl)
          rcases hexc with ⟨hop, _⟩ | ⟨hop, _⟩ | hop | hop <;>
            rw [hmul] at hop <;> exact TACOpcode.noConfusion hop
      case isFalse h2 =>
          split
          case isTrue h1 =>
              intro hb hn1 hn2
              exfalso
              have hexc := h (by rw [hmul]; rfl) (by rw [h1]; rfl)
                (by simpa using hn2)
              rcases hexc with ⟨hop, _⟩ | ⟨hop, _⟩ | hop | hop <;>
                rw [hmul] at hop <;> exact TACOpcode.noConfusion hop
          case isFalse h1 => exact h
  case isFalse => exact h

theorem str_pow_step_complete (i : TACInstr) (h : fold_complete i) :
    fold_complete ((str_pow_step i).1) := by
  unfold str_pow_step
  split
  case isTrue hp =>
      intro hb hn1 hn2
      exfalso
      have hexc := h (by rw [hp.1]; rfl) (by simpa using hn1)
        (by rw [hp.2]; rfl)
      rcases hexc with ⟨hop, _⟩ | ⟨hop, _⟩ | hop | hop <;>
        rw [hp.1] at hop <;> exact TACOpcode.noConfusion hop
  case isFalse => exact h

theorem str_instr_complete (i : TACInstr) (h : fold_complete i) :
    fold_complete ((str_instr i).1) := by
  unfold str_instr
  split
  · exact h
  · exact str_pow_step_complete _ (str_mul_step_complete _ h)

theorem rle_instr_complete (recent : List RecentLoad) (i : TACInstr)
    (h : fold_complete i) : fold_complete ((rle_instr recent i).1) := by
  unfold rle_instr
  split
  · exact h
  · split
    · exact h
    · split
      · split
        · exact fold_complete_of_opcode _ (Or.inr (Or.inr (Or.inr rfl)))
        · exact h
      · exact h

theorem live_good_map {g : TACInstr → TACInstr}
    (hdead : ∀ i, (g i).is_dead = i.is_dead)
    (hgood : ∀ i, fold_complete i → fold_complete (g i))
    {l : List TACInstr} (h : live_good l) : live_good (l.map g) := by
  intro j hj hlive
  simp only [List.mem_map] at hj
  obtain ⟨i, hi, rfl⟩ := hj
  rw [hdead] at hlive
  exact hgood i (h i hi hlive)

theorem rle_go_live_good (recent : List RecentLoad) {l : List TACInstr}
    (h : live_good l) : live_good (rle_go recent l).1 := by
  induction l generalizing recent with
  | nil => intro j hj; exact absurd hj (List.not_mem_nil j)
  | cons x xs ih =>
      intro j hj hlive
      simp only [rle_go, List.mem_cons] at hj
      rcases hj with rfl | hj
      · rw [rle_instr_dead] at hlive
        exact rle_instr_complete _ _ (h x (List.mem_cons_self x xs) hlive)
      · exact ih (rle_instr recent x).2.1
          (fun i hi hl => h i (List.mem_cons_of_mem x hi) hl) j hj hlive

theorem dce_go_live_good (acc : List TACInstr) {l : List TACInstr}
    (hacc : live_good acc) (hl : live_good l) :
    live_good (dce_go acc l).1 := by
  induction l generalizing acc with
  | nil =>
      intro j hj hlive
      simp only [dce_go, List.mem_reverse] at hj
      exact hacc j hj hlive
  | cons x xs ih =>
      have hx := hl x (List.mem_cons_self x xs)
      have hxs : live_good xs := fun i hi hlv => hl i (List.mem_cons_of_mem x hi) hlv
      unfold dce_go
      split
      · exact ih (x :: acc)
          (by
            intro i hi hlv
            rcases List.mem_cons.mp hi with rfl | hi
            · exact hx hlv
            · exact hacc i hi hlv)
          hxs
      · refine ih ({ x with is_dead := true } :: acc) ?_ hxs
        intro i hi hlv
        rcases List.mem_cons.mp hi with rfl | hi
        · exact absurd hlv (by simp)
        · exact hacc i hi hlv

theorem run_passes_level2_live_good (f : TACFunction) :
    live_good (run_passes (opt_default_options .level_2) f).1.instrs := by
  show live_good
    (opt_dead_code_elimination
      (opt_redundant_load_elimination
        (opt_strength_reduction
          (opt_algebraic_simplification
            (opt_constant_folding (opt_constant_propagation f).1).1).1).1).1).1.instrs
  have h2 := opt_constant_folding_live_good (opt_constant_propagation f).1
  have h3 : live_good (opt_algebraic_simplification
      (opt_constant_folding (opt_constant_propagation f).1).1).1.instrs :=
    live_good_map alg_instr_dead alg_instr_complete h2
  have h4 : live_good (opt_strength_reduction _).1.instrs :=
    live_good_map str_instr_dead str_instr_complete h3
  have h5 : live_good (opt_redundant_load_elimination _).1.instrs :=
    rle_go_live_good [] h4
  exact dce_go_live_good [] (fun i hi => absurd hi (List.not_mem_nil i)) h5

theorem opt_loop_level2_live_good :
    ∀ (fuel : Nat) (f : TACFunction), 1 ≤ fuel →
      live_good (opt_loop (opt_default_options .level_2) fuel f).instrs := by
  intro fuel
  induction fuel with
  | zero => intro f h; omega
  | succ m ih =>
      intro f _
      show live_good
        (if (run_passes (opt_default_options .level_2) f).2 = 0 then
          (run_passes (opt_default_options .level_2) f).1
         else opt_loop (opt_default_options .level_2) m
          (run_passes (opt_default_options .level_2) f).1).instrs
      split
      · exact run_passes_level2_live_good f
      · cases m with
        | zero => exact run_passes_level2_live_good f
        | succ m' => exact ih _ (by omega)

/-- Counterexample to C4 as stated: in the one-instruction-pair function
`t0 = 5.0 mod 2; display t0`, level-2 optimization leaves the `Mod`
instruction with both source operands of constant kinds even though its
divisor is the nonzero constant `2` — integer `Mod` with a `Decimal`
operand is silently not folded, an exception beyond division by zero. -/
theorem C4_counterexample :
    ∃ i ∈ (optimize_function (opt_default_options .level_2)
        { name := Option.none, return_type := DataType.nothing,
          param_names := [], param_types := [],
          instrs := [⟨TACOpcode.mod, TACOperand.temp 0 DataType.number,
                       TACOperand.float_const 5, TACOperand.int_const 2,
                       TACOperand.none, false⟩,
                     ⟨TACOpcode.display, TACOperand.none,
                       TACOperand.temp 0 DataType.number, TACOperand.none,
                       TACOperand.none, false⟩],
          instr_count := 2 }).instrs,
      is_binary_op i.opcode = true ∧ is_numeric_const i.arg1 = true ∧
        is_numeric_const i.arg2 = true ∧
        ¬(i.opcode = .div ∧ get_numeric_value i.arg2 = 0) ∧
        ¬(i.opcode = .mod ∧ get_numeric_value i.arg2 = 0) := by
  decide

/-- C4 (amended): after optimizing any function at level 2 (pass loop to
fixpoint followed by sweep), every remaining binary-operation instruction
whose two source operands are numeric constants (`IntConst`/`FloatConst`)
falls in the folding exception set: `Div` by a zero constant, `Mod` whose
operands are not both integer constants or whose divisor is the integer
constant zero, or `And`/`Or` (never folded on numeric constants).  Binary
instructions over non-numeric constant operands (bool or string
constants) are not folded at all and are not covered by the guarantee. -/
theorem C4_level2_no_foldable_constant_binaries (f : TACFunction) :
    ∀ i ∈ (optimize_function (opt_default_options .level_2) f).instrs,
      is_binary_op i.opcode = true → is_numeric_const i.arg1 = true →
        is_numeric_const i.arg2 = true → fold_exception i := by
  intro i hi
  have hg := opt_loop_level2_live_good 10 f (by omega)
  have hmem : i ∈ (opt_loop (opt_default_options .level_2) 10 f).instrs ∧
      (!i.is_dead) = true := by
    simpa [optimize_function, opt_sweep_dead, List.mem_filter] using hi
  exact hg i hmem.1 (by simpa using hmem.2)

/-- Witness for C4: the surviving `Mod` of the counterexample function is
in the exception set. -/
theorem C4_level2_no_foldable_constant_binaries_witness :
    fold_exception ⟨TACOpcode.mod, TACOperand.temp 0 DataType.number,
      TACOperand.float_const 5, TACOperand.int_const 2,
      TACOperand.none, false⟩ :=
  C4_level2_no_foldable_constant_binaries
    { name := Option.none, return_type := DataType.nothing,
      param_names := [], param_types := [],
      instrs := [⟨TACOpcode.mod, TACOperand.temp 0 DataType.number,
                   TACOperand.float_const 5, TACOperand.int_const 2,
                   TACOperand.none, false⟩,
                 ⟨TACOpcode.display, TACOperand.none,
                   TACOperand.temp 0 DataType.number, TACOperand.none,
                   TACOperand.none, false⟩],
      instr_count := 2 }
    ⟨TACOpcode.mod, TACOperand.temp 0 DataType.number,
      TACOperand.float_const 5, TACOperand.int_const 2,
      TACOperand.none, false⟩
    (by decide) (by decide) (by decide) (by decide)

/-! ## AST (`ast.h`)

The `SourceLocation` of every node is carried only into diagnostic
message text in C and is not modelled (errors and warnings are counted).
The mutable `data_type` annotation written by the analyzer is read back
only by the IR builder, and only on `Identifier`, `FuncCall` and `Index`
nodes; it is therefore carried as a constructor field on exactly those
three node kinds (holding whatever the analyzer left there).  A nullable
child pointer is an `OptNode`; `ASTNodeList` (a counted array in C) is a
cons list. -/

/-- Operators (`Operator` in `ast.h`). -/
inductive Operator where
  | add | sub | mul | div | mod | pow
  | eq | neq | lt | gt | lte | gte | between
  | and | or | not
  | neg | pos
deriving DecidableEq, Repr

mutual

inductive ASTNode where
  | program (statements : ASTNodeList)
  | var_decl (name : String) (var_type : DataType) (initializer : OptNode) (is_const : Bool)
  | func_decl (name : String) (params : ASTNodeList) (return_type : DataType) (body : OptNode)
  | param_decl (name : String) (param_type : DataType)
  | block (statements : ASTNodeList)
  | assign (target : ASTNode) (value : ASTNode)
  | if_stmt (condition : ASTNode) (then_branch : ASTNode) (else_branch : OptNode)
  | while_stmt (condition : ASTNode) (body : ASTNode)
  | repeat_stmt (count : ASTNode) (body : ASTNode)
  | for_each_stmt (iterator_name : String) (iterable : ASTNode) (body : ASTNode)
  | return_stmt (value : OptNode)
  | break_stmt
  | continue_stmt
  | expr_stmt (expr : ASTNode)
  | secure_zone (body : ASTNode) (is_safe : Bool)
  | display_stmt (value : ASTNode)
  | ask_stmt (prompt : OptNode) (target_var : String)
  | read_stmt (target_var : String)
  | binary_op (op : Operator) (left : ASTNode) (right : ASTNode)
  | unary_op (op : Operator) (operand : ASTNode)
  | ternary_op (operand : ASTNode) (lower : ASTNode) (upper : ASTNode)
  | literal_int (value : Int)
  | literal_float (value : Rat)
  | literal_string (value : String)
  | literal_bool (value : Bool)
  | identifier (name : String) (data_type : DataType)
  | func_call (name : String) (args : ASTNodeList) (data_type : DataType)
  | index_expr (array : ASTNode) (index : ASTNode) (data_type : DataType)
  | list_literal (elements : ASTNodeList)

inductive OptNode where
  | null
  | node (n : ASTNode)

inductive ASTNodeList where
  | nil
  | cons (head : ASTNode) (tail : ASTNodeList)

end

/-- `list->count`. -/
def ASTNodeList.length : ASTNodeList → Nat
  | .nil => 0
  | .cons _ tl => tl.length + 1

/-- `list->nodes[i]`. -/
def ASTNodeList.get? : ASTNodeList → Nat → Option ASTNode
  | .nil, _ => Option.none
  | .cons hd _, 0 => some hd
  | .cons _ tl, n + 1 => tl.get? n

/-! ## Symbol table (`symbol_table.h` / `symbol_table.c`) -/

/-- `SymbolKind` (suffixed because `variable` and `function` collide with
Lean keywords or earlier names). -/
inductive SymbolKind where
  | variable_kind
  | constant_kind
  | function_kind
  | parameter_kind
deriving DecidableEq, Repr

/-- `func_info` of a symbol.  `params` is the AST parameter list stored
by `symtab_declare_function`; the C pointer may be `NULL`, which behaves
identically to an empty list everywhere it is read (`count` defaults to
0), so it is one `ASTNodeList` here. -/
structure FuncInfo where
  params : ASTNodeList
  return_type : DataType
  has_return : Bool

/-- A symbol (`Symbol` in `symbol_table.h`); `decl_loc` feeds only error
message text and is not modelled. -/
structure Symbol where
  name : String
  kind : SymbolKind
  type : DataType
  scope_level : Int
  is_initialized : Bool
  func_info : FuncInfo

/-- A lexical scope (`Scope`). -/
structure Scope where
  level : Int
  symbols : List Symbol
  is_function_scope : Bool
  is_loop_scope : Bool
  is_secure_zone : Bool
  expected_return : DataType

/-- The symbol table: the scope stack (head = `current_scope`, last =
`global_scope`) plus depth and diagnostic counters. -/
structure SymbolTable where
  scopes : List Scope
  scope_depth : Int
  error_count : Nat
  warning_count : Nat

/-- `symbol_create`. -/
def symbol_create (name : String) (kind : SymbolKind) (type : DataType)
    (scope_level : Int) : Symbol :=
  { name := name, kind := kind, type := type, scope_level := scope_level,
    is_initialized := false,
    func_info := { params := .nil, return_type := .nothing, has_return := false } }

/-- `scope_create`. -/
def scope_create (level : Int) : Scope :=
  { level := level, symbols := [], is_function_scope := false,
    is_loop_scope := false, is_secure_zone := false,
    expected_return := .nothing }

/-- `symtab_create`. -/
def symtab_create : SymbolTable :=
  { scopes := [scope_create 0], scope_depth := 0,
    error_count := 0, warning_count := 0 }

/-- `symtab_enter_scope` (symbol_table.c:139-154): push a fresh scope
that inherits the loop and secure-zone flags of the parent, and the
parent's `expected_return` when the parent is a function scope or itself
carries a non-`Nothing` expected return. -/
def symtab_enter_scope (t : SymbolTable) : SymbolTable :=
  let depth := t.scope_depth + 1
  let base := scope_create depth
  let new_scope :=
    match t.scopes.head? with
    | some parent =>
        { base with
            is_loop_scope := parent.is_loop_scope,
            is_secure_zone := parent.is_secure_zone,
            expected_return :=
              if parent.is_function_scope ∨ parent.expected_return ≠ .nothing
              then parent.expected_return else base.expected_return }
    | Option.none => base
  { t with scopes := new_scope :: t.scopes, scope_depth := depth }

/-- Rewrite the current (innermost) scope. -/
def symtab_set_current (t : SymbolTable) (f : Scope → Scope) : SymbolTable :=
  match t.scopes with
  | [] => t
  | s :: rest => { t with scopes := f s :: rest }

/-- `symtab_enter_function_scope` (symbol_table.c:156-162): enter a
scope, mark it as a function scope with the declared return type, and
reset the inherited loop flag. -/
def symtab_enter_function_scope (t : SymbolTable) (return_type : DataType) :
    SymbolTable :=
  symtab_set_current (symtab_enter_scope t) fun s =>
    { s with is_function_scope := true, expected_return := return_type,
             is_loop_scope := false }

/-- `symtab_enter_loop_scope`. -/
def symtab_enter_loop_scope (t : SymbolTable) : SymbolTable :=
  symtab_set_current (symtab_enter_scope t) fun s => { s with is_loop_scope := true }

/-- `symtab_enter_secure_scope`. -/
def symtab_enter_secure_scope (t : SymbolTable) : SymbolTable :=
  symtab_set_current (symtab_enter_scope t) fun s => { s with is_secure_zone := true }

/-- `symtab_exit_scope`: pop the current scope; attempting to exit the
global scope prints a warning to stderr and changes nothing. -/
def symtab_exit_scope (t : SymbolTable) : SymbolTable :=
  match t.scopes with
  | [] => t
  | [_] => t
  | _ :: rest => { t with scopes := rest, scope_depth := t.scope_depth - 1 }

/-- `symtab_in_loop`: only the current scope's flag is consulted (the
flag itself is inherited on entry). -/
def symtab_in_loop (t : SymbolTable) : Bool :=
  match t.scopes with
  | s :: _ => s.is_loop_scope
  | [] => false

/-- `symtab_in_function`: walk the scope chain for a function scope. -/
def symtab_in_function (t : SymbolTable) : Bool :=
  t.scopes.any (·.is_function_scope)

/-- `symtab_in_secure_zone`. -/
def symtab_in_secure_zone (t : SymbolTable) : Bool :=
  match t.scopes with
  | s :: _ => s.is_secure_zone
  | [] => false

/-- `symtab_get_return_type`: the `expected_return` of the nearest
enclosing function scope, else `Nothing`. -/
def symtab_get_return_type (t : SymbolTable) : DataType :=
  match t.scopes.find? (·.is_function_scope) with
  | some s => s.expected_return
  | Option.none => .nothing

/-- `symtab_lookup`: first hit walking current → global. -/
def symtab_lookup (t : SymbolTable) (name : String) : Option Symbol :=
  t.scopes.findSome? fun sc => sc.symbols.find? fun sym => sym.name == name

/-- `symtab_lookup_current_scope`. -/
def symtab_lookup_current_scope (t : SymbolTable) (name : String) : Option Symbol :=
  match t.scopes with
  | [] => Option.none
  | s :: _ => s.symbols.find? fun sym => sym.name == name

/-- `symtab_lookup_function`. -/
def symtab_lookup_function (t : SymbolTable) (name : String) : Option Symbol :=
  match symtab_lookup t name with
  | some sym => if sym.kind = .function_kind then some sym else Option.none
  | Option.none => Option.none

/-- Add a symbol to the front of the current scope's symbol list. -/
def symtab_add_symbol (t : SymbolTable) (sym : Symbol) : SymbolTable :=
  symtab_set_current t fun s => { s with symbols := sym :: s.symbols }

/-- `symtab_declare_variable` (symbol_table.c:225-248).  The C function
returns an error message string or `NULL`; the message text is not
modelled, so the second component is `true` exactly when an error message
is returned (redeclaration in the current scope). -/
def symtab_declare_variable (t : SymbolTable) (name : String) (type : DataType)
    (is_const : Bool) : SymbolTable × Bool :=
  match symtab_lookup_current_scope t name with
  | some _ => (t, true)
  | Option.none =>
      let kind := if is_const then SymbolKind.constant_kind else SymbolKind.variable_kind
      (symtab_add_symbol t (symbol_create name kind type t.scope_depth), false)

/-- `symtab_declare_function` (symbol_table.c:250-276). -/
def symtab_declare_function (t : SymbolTable) (name : String)
    (params : ASTNodeList) (return_type : DataType) : SymbolTable × Bool :=
  match symtab_lookup_current_scope t name with
  | some _ => (t, true)
  | Option.none =>
      let sym := symbol_create name .function_kind .function t.scope_depth
      let sym :=
        { sym with
            func_info := { params := params, return_type := return_type,
                           has_return := false },
            is_initialized := true }
      (symtab_add_symbol t sym, false)

/-- `symtab_declare_parameter` (symbol_table.c:278-299). -/
def symtab_declare_parameter (t : SymbolTable) (name : String)
    (type : DataType) : SymbolTable × Bool :=
  match symtab_lookup_current_scope t name with
  | some _ => (t, true)
  | Option.none =>
      let sym := { symbol_create name .parameter_kind type t.scope_depth with
                     is_initialized := true }
      (symtab_add_symbol t sym, false)

/-- Mark the first symbol with this name in the list initialized. -/
def symbols_mark_first (name : String) : List Symbol → List Symbol
  | [] => []
  | sym :: rest =>
      if sym.name == name then { sym with is_initialized := true } :: rest
      else sym :: symbols_mark_first name rest

/-- Walk the scope chain and mark initialized the symbol that
`symtab_lookup` would return (in C, `symtab_mark_initialized` mutates the
looked-up `Symbol*` in place). -/
def scopes_mark_initialized (name : String) : List Scope → List Scope
  | [] => []
  | s :: rest =>
      if (s.symbols.find? fun sym => sym.name == name).isSome then
        { s with symbols := symbols_mark_first name s.symbols } :: rest
      else s :: scopes_mark_initialized name rest

/-- `symtab_mark_initialized` applied to the result of `symtab_lookup`. -/
def symtab_mark_initialized (t : SymbolTable) (name : String) : SymbolTable :=
  { t with scopes := scopes_mark_initialized name t.scopes }

/-! ## Type utilities (`semantic.c`) -/

/-- `types_compatible` (semantic.c:73-88). -/
def types_compatible (target source : DataType) : Bool :=
  if target = source then true
  else if (target = .number ∨ target = .decimal) ∧
          (source = .number ∨ source = .decimal) then true
  else if target = .unknown ∨ source = .unknown then true
  else false

/-- `type_is_numeric` (semantic.c:90-92). -/
def type_is_numeric (t : DataType) : Bool :=
  t == .number || t == .decimal || t == .unknown

/-- `type_is_boolean` (semantic.c:94-96). -/
def type_is_boolean (t : DataType) : Bool :=
  t == .flag || t == .unknown

/-- `get_binary_op_result_type` (semantic.c:98-133). -/
def get_binary_op_result_type (op : Operator) (left right : DataType) : DataType :=
  match op with
  | .add | .sub | .mul | .div | .pow =>
      if left = .decimal ∨ right = .decimal then .decimal else .number
  | .mod => .number
  | .eq | .neq | .lt | .gt | .lte | .gte | .between => .flag
  | .and | .or => .flag
  | _ => .unknown

/-- `get_unary_op_result_type` (semantic.c:135-147). -/
def get_unary_op_result_type (op : Operator) (operand : DataType) : DataType :=
  match op with
  | .neg | .pos => operand
  | .not => .flag
  | _ => .unknown

/-! ## Semantic analyzer (`semantic.c`) -/

/-- `AnalyzerContext`. -/
structure AnalyzerContext where
  symtab : SymbolTable
  had_error : Bool

/-- A `symtab_error` call: every call site in `semantic.c` also sets
`ctx->had_error = true`, so the two effects are combined here; the
message text goes to stderr and is not modelled. -/
def ctx_error (ctx : AnalyzerContext) : AnalyzerContext :=
  { ctx with
      symtab := { ctx.symtab with error_count := ctx.symtab.error_count + 1 },
      had_error := true }

/-- A `symtab_warning` call (does not touch `had_error`). -/
def ctx_warning (ctx : AnalyzerContext) : AnalyzerContext :=
  { ctx with
      symtab := { ctx.symtab with warning_count := ctx.symtab.warning_count + 1 } }

/-- Lift a symbol-table operation to the context. -/
def ctx_tab (ctx : AnalyzerContext) (f : SymbolTable → SymbolTable) : AnalyzerContext :=
  { ctx with symtab := f ctx.symtab }

/-- The parameter-declaration loop of the `AST_FUNC_DECL` handler
(semantic.c:476-492): declare each `param_decl` node into the current
(function) scope, reporting one error per failed declaration; other node
kinds are skipped. -/
def declare_params (ctx : AnalyzerContext) : ASTNodeList → AnalyzerContext
  | .nil => ctx
  | .cons p rest =>
      let ctx :=
        match p with
        | .param_decl name type =>
            let (t, err) := symtab_declare_parameter ctx.symtab name type
            let ctx := { ctx with symtab := t }
            if err then ctx_error ctx else ctx
        | _ => ctx
      declare_params ctx rest

mutual

/-- `analyze_expression` (semantic.c:154-412): returns the node's type
and the updated context.  The `node->data_type` annotation writes are
write-only within the analyzer and are not modelled. -/
def analyze_expression (ctx : AnalyzerContext) : ASTNode → DataType × AnalyzerContext
  | .literal_int _ => (.number, ctx)
  | .literal_float _ => (.decimal, ctx)
  | .literal_string _ => (.text, ctx)
  | .literal_bool _ => (.flag, ctx)
  | .identifier name _ =>
      (match symtab_lookup ctx.symtab name with
       | Option.none => (.unknown, ctx_error ctx)
       | some sym =>
           let ctx :=
             if ¬sym.is_initialized ∧ sym.kind ≠ .parameter_kind then ctx_warning ctx
             else ctx
           (sym.type, ctx))
  | .binary_op op l r =>
      let (left_type, ctx) := analyze_expression ctx l
      let (right_type, ctx) := analyze_expression ctx r
      if op = .add ∧ (left_type = .text ∨ right_type = .text) then (.text, ctx)
      else
        let ctx :=
          match op with
          | .add | .sub | .mul | .div | .mod | .pow =>
              let ctx := if type_is_numeric left_type then ctx else ctx_error ctx
              if type_is_numeric right_type then ctx else ctx_error ctx
          | .and | .or =>
              let ctx := if type_is_boolean left_type then ctx else ctx_error ctx
              if type_is_boolean right_type then ctx else ctx_error ctx
          | .lt | .gt | .lte | .gte =>
              if types_compatible left_type right_type then ctx else ctx_error ctx
          | _ => ctx
        (get_binary_op_result_type op left_type right_type, ctx)
  | .unary_op op e =>
      let (operand_type, ctx) := analyze_expression ctx e
      let ctx :=
        if (op = .neg ∨ op = .pos) ∧ ¬type_is_numeric operand_type then ctx_error ctx
        else ctx
      let ctx :=
        if op = .not ∧ ¬type_is_boolean operand_type then ctx_error ctx else ctx
      (get_unary_op_result_type op operand_type, ctx)
  | .ternary_op v lo hi =>
      let (operand_type, ctx) := analyze_expression ctx v
      let (lower_type, ctx) := analyze_expression ctx lo
      let (upper_type, ctx) := analyze_expression ctx hi
      let ctx := if type_is_numeric operand_type then ctx else ctx_error ctx
      let ctx := if type_is_numeric lower_type then ctx else ctx_error ctx
      let ctx := if type_is_numeric upper_type then ctx else ctx_error ctx
      (.flag, ctx)
  | .func_call name args _ =>
      (match symtab_lookup_function ctx.symtab name with
       | Option.none => (.unknown, ctx_error ctx)
       | some func =>
           let expected_args := func.func_info.params.length
           let actual_args := args.length
           let ctx := if expected_args ≠ actual_args then ctx_error ctx else ctx
           let ctx := analyze_call_args ctx args func.func_info.params 0
           (func.func_info.return_type, ctx))
  | .index_expr arr idx _ =>
      let (array_type, ctx) := analyze_expression ctx arr
      let (index_type, ctx) := analyze_expression ctx idx
      let ctx :=
        if array_type ≠ .list ∧ array_type ≠ .text ∧ array_type ≠ .unknown then
          ctx_error ctx
        else ctx
      let ctx := if type_is_numeric index_type then ctx else ctx_error ctx
      (if array_type = .text then DataType.text else DataType.unknown, ctx)
  | .list_literal elems => (.list, analyze_expr_list ctx elems)
  | _ => (.unknown, ctx)
termination_by structural n => n

/-- The element loop of the `AST_LIST` case (types are discarded). -/
def analyze_expr_list (ctx : AnalyzerContext) : ASTNodeList → AnalyzerContext
  | .nil => ctx
  | .cons e rest =>
      let (_, ctx) := analyze_expression ctx e
      analyze_expr_list ctx rest
termination_by structural l => l

/-- The argument loop of the `AST_FUNC_CALL` case (semantic.c:344-364):
analyze each argument, and when the function's parameter list has a
`param_decl` at the same index, check compatibility against its declared
type. -/
def analyze_call_args (ctx : AnalyzerContext) (args : ASTNodeList)
    (fparams : ASTNodeList) (i : Nat) : AnalyzerContext :=
  match args with
  | .nil => ctx
  | .cons a rest =>
      let (arg_type, ctx) := analyze_expression ctx a
      let ctx :=
        match fparams.get? i with
        | some (.param_decl _ param_type) =>
            if types_compatible param_type arg_type then ctx else ctx_error ctx
        | _ => ctx
      analyze_call_args ctx rest fparams (i + 1)
termination_by structural args

/-- `analyze_statement` (semantic.c:419-750) fused with `analyze_node`
(semantic.c:757-783).  In C, `analyze_node` dispatches `Program` and
`Block` to the child loop and every other node to `analyze_statement`,
whose own `default` arm ignores `Program`/`Block`; `analyze_statement`
is never called except through that dispatch, so the two functions are a
single total function, modelled here under the name `analyze_node` (the
first two arms are `analyze_node`'s, the rest is `analyze_statement`'s
switch). -/
def analyze_node (ctx : AnalyzerContext) : ASTNode → AnalyzerContext
  | .program statements => analyze_node_list ctx statements
  | .block statements => analyze_node_list ctx statements
  | .var_decl name var_type initializer is_const =>
      let (t, err) := symtab_declare_variable ctx.symtab name var_type is_const
      let ctx := { ctx with symtab := t }
      let ctx := if err then ctx_error ctx else ctx
      (match initializer with
       | .null => ctx
       | .node e =>
           let (init_type, ctx) := analyze_expression ctx e
           let ctx :=
             if types_compatible var_type init_type then ctx else ctx_error ctx
           match symtab_lookup ctx.symtab name with
           | some _ => ctx_tab ctx (symtab_mark_initialized · name)
           | Option.none => ctx)
  | .func_decl name params return_type body =>
      let (t, err) := symtab_declare_function ctx.symtab name params return_type
      let ctx := { ctx with symtab := t }
      let ctx := if err then ctx_error ctx else ctx
      let ctx := ctx_tab ctx (symtab_enter_function_scope · return_type)
      let ctx := declare_params ctx params
      let ctx :=
        match body with
        | .null => ctx
        | .node b => analyze_node ctx b
      ctx_tab ctx symtab_exit_scope
  | .assign target value =>
      (match target with
       | .identifier name _ =>
           (match symtab_lookup ctx.symtab name with
            | Option.none => ctx_error ctx
            | some sym =>
                if sym.kind = .constant_kind then ctx_error ctx
                else if sym.kind = .function_kind then ctx_error ctx
                else
                  let (value_type, ctx) := analyze_expression ctx value
                  let ctx :=
                    if types_compatible sym.type value_type then ctx
                    else ctx_error ctx
                  ctx_tab ctx (symtab_mark_initialized · name))
       | _ =>
           let (_, ctx) := analyze_expression ctx target
           let (_, ctx) := analyze_expression ctx value
           ctx)
  | .if_stmt condition then_branch else_branch =>
      let (cond_type, ctx) := analyze_expression ctx condition
      let ctx :=
        if cond_type ≠ .flag ∧ ¬type_is_numeric cond_type ∧ cond_type ≠ .unknown
        then ctx_warning ctx else ctx
      let ctx := ctx_tab ctx symtab_enter_scope
      let ctx := analyze_node ctx then_branch
      let ctx := ctx_tab ctx symtab_exit_scope
      (match else_branch with
       | .null => ctx
       | .node e =>
           let ctx := ctx_tab ctx symtab_enter_scope
           let ctx := analyze_node ctx e
           ctx_tab ctx symtab_exit_scope)
  | .while_stmt condition body =>
      let (cond_type, ctx) := analyze_expression ctx condition
      let ctx :=
        if cond_type ≠ .flag ∧ ¬type_is_numeric cond_type ∧ cond_type ≠ .unknown
        then ctx_warning ctx else ctx
      let ctx := ctx_tab ctx symtab_enter_loop_scope
      let ctx := analyze_node ctx body
      ctx_tab ctx symtab_exit_scope
  | .repeat_stmt count body =>
      let (count_type, ctx) := analyze_expression ctx count
      let ctx := if type_is_numeric count_type then ctx else ctx_error ctx
      let ctx := ctx_tab ctx symtab_enter_loop_scope
      let ctx := analyze_node ctx body
      ctx_tab ctx symtab_exit_scope
  | .for_each_stmt iterator_name iterable body =>
      let (iter_type, ctx) := analyze_expression ctx iterable
      let ctx :=
        if iter_type ≠ .list ∧ iter_type ≠ .text ∧ iter_type ≠ .unknown then
          ctx_error ctx
        else ctx
      let ctx := ctx_tab ctx symtab_enter_loop_scope
      let elem_type := if iter_type = .text then DataType.text else DataType.unknown
      let (t, err) := symtab_declare_variable ctx.symtab iterator_name elem_type false
      let ctx := { ctx with symtab := t }
      let ctx :=
        if err then ctx_error ctx
        else
          match symtab_lookup ctx.symtab iterator_name with
          | some _ => ctx_tab ctx (symtab_mark_initialized · iterator_name)
          | Option.none => ctx
      let ctx := analyze_node ctx body
      ctx_tab ctx symtab_exit_scope
  | .return_stmt value =>
      if ¬symtab_in_function ctx.symtab then ctx_error ctx
      else
        let expected := symtab_get_return_type ctx.symtab
        match value with
        | .node e =>
            let (actual, ctx) := analyze_expression ctx e
            if expected = .nothing then ctx_error ctx
            else if ¬types_compatible expected actual then ctx_error ctx
            else ctx
        | .null =>
            if expected ≠ .nothing ∧ expected ≠ .unknown then ctx_error ctx else ctx
  | .break_stmt => if ¬symtab_in_loop ctx.symtab then ctx_error ctx else ctx
  | .continue_stmt => if ¬symtab_in_loop ctx.symtab then ctx_error ctx else ctx
  | .display_stmt value =>
      let (_, ctx) := analyze_expression ctx value
      ctx
  | .ask_stmt prompt target_var =>
      let ctx :=
        match prompt with
        | .null => ctx
        | .node p =>
            let (_, ctx) := analyze_expression ctx p
            ctx
      (match symtab_lookup ctx.symtab target_var with
       | Option.none => ctx_error ctx
       | some sym =>
           if sym.kind = .constant_kind then ctx_error ctx
           else ctx_tab ctx (symtab_mark_initialized · target_var))
  | .read_stmt target_var =>
      (match symtab_lookup ctx.symtab target_var with
       | Option.none => ctx_error ctx
       | some sym =>
           if sym.kind = .constant_kind then ctx_error ctx
           else ctx_tab ctx (symtab_mark_initialized · target_var))
  | .secure_zone body _ =>
      let ctx := ctx_tab ctx symtab_enter_secure_scope
      let ctx := analyze_node ctx body
      ctx_tab ctx symtab_exit_scope
  | .expr_stmt e =>
      let (_, ctx) := analyze_expression ctx e
      ctx
  | _ => ctx
termination_by structural n => n

/-- The child loop of `analyze_node` (`Program` and `Block` iterate
their children without opening a scope — scopes come from the statement
handlers). -/
def analyze_node_list (ctx : AnalyzerContext) : ASTNodeList → AnalyzerContext
  | .nil => ctx
  | .cons n rest => analyze_node_list (analyze_node ctx n) rest
termination_by structural l => l

end

/-- `SemanticResult` (`semantic.h`). -/
structure SemanticResult where
  success : Bool
  error_count : Nat
  warning_count : Nat
  symtab : Option SymbolTable

/-- `semantic_analyze` (semantic.c:790-814): a `NULL` program yields the
zero-initialized result with `success = false` and `error_count = 1`
without building a symbol table; otherwise a fresh table is built, the
tree analyzed, and the counts read back. -/
def semantic_analyze (program : Option ASTNode) : SemanticResult :=
  match program with
  | Option.none =>
      { success := false, error_count := 1, warning_count := 0,
        symtab := Option.none }
  | some p =>
      let ctx : AnalyzerContext := { symtab := symtab_create, had_error := false }
      let ctx := analyze_node ctx p
      { success := !ctx.had_error && ctx.symtab.error_count == 0,
        error_count := ctx.symtab.error_count,
        warning_count := ctx.symtab.warning_count,
        symtab := some ctx.symtab }

/-! ## Claim C10 -/

/-- C10: calling `semantic_analyze` with a `NULL` program node returns a
result with `success = false`, `error_count = 1`, `warning_count = 0`
and a `NULL` symbol table — no symbol table is constructed and no
located error is reported (the lone error exists only as the count). -/
theorem C10_semantic_analyze_null_program :
    semantic_analyze Option.none =
      { success := false, error_count := 1, warning_count := 0,
        symtab := Option.none } := rfl

/-! ## Claim C5 -/

/-- Counterexample context for C5: a symbol table holding a function
`f` with no parameters returning `Nothing`, with the current scope being
the function scope of `f` (so `expected_return = Nothing`). -/
def c5_ctx : AnalyzerContext :=
  { symtab := symtab_enter_function_scope
      (symtab_declare_function symtab_create "f" .nil .nothing).1 .nothing,
    had_error := false }

/-- Counterexample to C5 as stated: for `give back f()` inside the
`Nothing`-returning function `f`, the value's type (`Nothing`, the
return type of `f`) *is* compatible with `expected_return = Nothing`
(and the value expression itself reports no error), yet the analyzer
reports one semantic error ("Function should not return a value"): with
a value, `expected_return = Nothing` is an error regardless of
compatibility. -/
theorem C5_counterexample :
    (analyze_node c5_ctx
        (.return_stmt (.node (.func_call "f" .nil .nothing)))).symtab.error_count = 1 ∧
      symtab_in_function c5_ctx.symtab = true ∧
      types_compatible (symtab_get_return_type c5_ctx.symtab)
        (analyze_expression c5_ctx (.func_call "f" .nil .nothing)).1 = true ∧
      (analyze_expression c5_ctx (.func_call "f" .nil .nothing)).2.symtab.error_count =
        c5_ctx.symtab.error_count := by
  decide

/-- C5 (amended): the analyzer reports a semantic error for a `Return`
outside any function scope (and then does not analyze the value); inside
a function, for a `Return` with a value it reports an error exactly when
the nearest enclosing function scope's `expected_return` is `Nothing` or
the value's type is not compatible with it; for a `Return` without a
value it reports an error exactly when that `expected_return` is neither
`Nothing` nor `Unknown`. -/
theorem C5_return_statement_errors (ctx : AnalyzerContext) (value : OptNode) :
    (analyze_node ctx (.return_stmt value)).symtab.error_count =
      if ¬symtab_in_function ctx.symtab then ctx.symtab.error_count + 1
      else
        match value with
        | .node e =>
            (analyze_expression ctx e).2.symtab.error_count +
              (if symtab_get_return_type ctx.symtab = .nothing ∨
                  ¬types_compatible (symtab_get_return_type ctx.symtab)
                    (analyze_expression ctx e).1 then 1 else 0)
        | .null =>
            ctx.symtab.error_count +
              (if symtab_get_return_type ctx.symtab ≠ .nothing ∧
                  symtab_get_return_type ctx.symtab ≠ .unknown then 1 else 0) := by
  show (if ¬symtab_in_function ctx.symtab then ctx_error ctx
        else
          match value with
          | .node e =>
              let (actual, ctx1) := analyze_expression ctx e
              if symtab_get_return_type ctx.symtab = .nothing then ctx_error ctx1
              else if ¬types_compatible (symtab_get_return_type ctx.symtab) actual
                then ctx_error ctx1
              else ctx1
          | .null =>
              if symtab_get_return_type ctx.symtab ≠ .nothing ∧
                  symtab_get_return_type ctx.symtab ≠ .unknown then ctx_error ctx
              else ctx).symtab.error_count = _
  by_cases hf : symtab_in_function ctx.symtab = true
  · have hnn : ¬¬(symtab_in_function ctx.symtab = true) := fun hcon => hcon hf
    rw [if_neg hnn, if_neg hnn]
    cases value with
    | null =>
        by_cases hn : symtab_get_return_type ctx.symtab ≠ .nothing ∧
            symtab_get_return_type ctx.symtab ≠ .unknown
        · simp [hn, ctx_error]
        · simp [hn, ctx_error]
    | node e =>
        by_cases h0 : symtab_get_return_type ctx.symtab = .nothing
        · simp [h0, ctx_error]
        · by_cases hcp : types_compatible (symtab_get_return_type ctx.symtab)
              (analyze_expression ctx e).1 = true
          · simp [h0, hcp, ctx_error]
          · simp [h0, hcp, ctx_error]
  · simp [hf, ctx_error]

/-- Witness for C5: in the counterexample context, a valueless `Return`
reports no error (the expected return type is `Nothing`). -/
theorem C5_return_statement_errors_witness :
    (analyze_node c5_ctx (.return_stmt .null)).symtab.error_count = 0 := by
  have h := C5_return_statement_errors c5_ctx .null
  rw [h]
  decide

/-! ## Claim C6 -/

/-- The scope-entry and -exit operations the analyzer performs while
walking statements (each constructor names the `symtab_enter_*` /
`symtab_exit_scope` call it stands for). -/
inductive ScopeOp where
  | enter_block
  | enter_loop
  | enter_function (return_type : DataType)
  | enter_secure
  | exit_scope
deriving DecidableEq, Repr

def apply_scope_op (t : SymbolTable) : ScopeOp → SymbolTable
  | .enter_block => symtab_enter_scope t
  | .enter_loop => symtab_enter_loop_scope t
  | .enter_function rt => symtab_enter_function_scope t rt
  | .enter_secure => symtab_enter_secure_scope t
  | .exit_scope => symtab_exit_scope t

def apply_scope_ops (t : SymbolTable) : List ScopeOp → SymbolTable
  | [] => t
  | op :: ops => apply_scope_ops (apply_scope_op t op) ops

/-- The kind of an opened scope, for the specification-side reading. -/
inductive ScopeKind where
  | block
  | loop
  | function
  | secure
deriving DecidableEq, Repr

/-- The stack of currently open scopes (innermost first, global
excluded) after a sequence of scope operations. -/
def open_kinds : List ScopeOp → List ScopeKind → List ScopeKind
  | [], ks => ks
  | op :: ops, ks =>
      open_kinds ops
        (match op with
         | .enter_block => .block :: ks
         | .enter_loop => .loop :: ks
         | .enter_function _ => .function :: ks
         | .enter_secure => .secure :: ks
         | .exit_scope => ks.tail)

/-- Modelled from the spec (its wording, for comparison with the code):
"Loop … flags are inherited by child scopes (the inner scope sees the
enclosing loop). The function flag is not inherited: entering a function
scope resets the loop flag." — an enclosing loop scope exists exactly
when, walking the open scopes from innermost outwards, a loop scope
appears before any function scope. -/
def spec_in_loop : List ScopeKind → Bool
  | [] => false
  | .loop :: _ => true
  | .function :: _ => false
  | _ :: rest => spec_in_loop rest

/-- The `is_loop_scope` flags the spec's reading assigns to the open
scopes (innermost first) plus the global scope's `false`. -/
def spec_flags : List ScopeKind → List Bool
  | [] => [false]
  | k :: rest =>
      (match k with
       | .loop => true
       | .function => false
       | _ => (spec_flags rest).headI) :: spec_flags rest

theorem spec_flags_ne_nil (ks : List ScopeKind) : spec_flags ks ≠ [] := by
  cases ks <;> simp [spec_flags]

theorem spec_flags_head (ks : List ScopeKind) :
    (spec_flags ks).headI = spec_in_loop ks := by
  induction ks with
  | nil => rfl
  | cons k rest ih => cases k <;> simp [spec_flags, spec_in_loop, ih]

theorem loop_flag_invariant :
    ∀ (ops : List ScopeOp) (t : SymbolTable) (ks : List ScopeKind),
      t.scopes.map (·.is_loop_scope) = spec_flags ks →
      (apply_scope_ops t ops).scopes.map (·.is_loop_scope) =
        spec_flags (open_kinds ops ks) := by
  intro ops
  induction ops with
  | nil => intro t ks h; exact h
  | cons op ops ih =>
      intro t ks h
      obtain ⟨s, rest, hs⟩ : ∃ s rest, t.scopes = s :: rest := by
        cases hsc : t.scopes with
        | nil => rw [hsc] at h; exact absurd h.symm (spec_flags_ne_nil ks)
        | cons s rest => exact ⟨s, rest, rfl⟩
      have hfull : s.is_loop_scope :: rest.map (fun x => x.is_loop_scope) =
          spec_flags ks := by
        rw [hs] at h
        simpa using h
      cases op with
      | enter_block =>
          apply ih
          simp only [apply_scope_op, symtab_enter_scope, hs, List.head?_cons,
            open_kinds, spec_flags, List.map_cons]
          rw [← hfull]
          simp
      | enter_loop =>
          apply ih
          simp only [apply_scope_op, symtab_enter_loop_scope, symtab_enter_scope,
            symtab_set_current, hs, List.head?_cons, open_kinds, spec_flags,
            List.map_cons]
          rw [← hfull]
      | enter_function rt =>
          apply ih
          simp only [apply_scope_op, symtab_enter_function_scope,
            symtab_enter_scope, symtab_set_current, hs, List.head?_cons,
            open_kinds, spec_flags, List.map_cons]
          rw [← hfull]
      | enter_secure =>
          apply ih
          simp only [apply_scope_op, symtab_enter_secure_scope,
            symtab_enter_scope, symtab_set_current, hs, List.head?_cons,
            open_kinds, spec_flags, List.map_cons]
          rw [← hfull]
          simp
      | exit_scope =>
          apply ih
          cases rest with
          | nil =>
              have hks : ks = [] := by
                cases ks with
                | nil => rfl
                | cons k ks' =>
                    have := congrArg List.tail hfull
                    simp only [List.map_nil, List.tail_cons, spec_flags] at this
                    exact absurd this.symm (spec_flags_ne_nil ks')
              simp only [apply_scope_op, symtab_exit_scope, hs, open_kinds, hks,
                List.tail_nil]
              rw [hks] at hfull
              simpa using hfull
          | cons s2 rest2 =>
              cases ks with
              | nil =>
                  exfalso
                  have := congrArg List.length hfull
                  simp [spec_flags] at this
              | cons k ks' =>
                  simp only [apply_scope_op, symtab_exit_scope, hs, open_kinds,
                    List.tail_cons]
                  have := congrArg List.tail hfull
                  simpa [spec_flags] using this

/-- C6: (a) after any sequence of scope operations starting from a fresh
table, `symtab_in_loop` — the predicate guarding `Break`/`Continue` —
agrees with the specification's reading: an enclosing loop scope exists
iff a loop scope appears before any function scope walking the open
scopes from innermost outwards (loop flags are inherited by child
scopes, entering a function scope resets them); (b) analyzing `Break` or
`Continue` adds exactly one error when that predicate is false and none
when it is true; (c) concretely, a `Break` nested in an inner `If` block
of a `While` body is accepted, and (d) a `Break` inside the body of a
function declared within a `While` loop is one error. -/
theorem C6_break_continue_loop_scope :
    (∀ ops : List ScopeOp,
      symtab_in_loop (apply_scope_ops symtab_create ops) =
        spec_in_loop (open_kinds ops [])) ∧
    (∀ ctx : AnalyzerContext,
      (analyze_node ctx .break_stmt).symtab.error_count =
        ctx.symtab.error_count + (if symtab_in_loop ctx.symtab then 0 else 1) ∧
      (analyze_node ctx .continue_stmt).symtab.error_count =
        ctx.symtab.error_count + (if symtab_in_loop ctx.symtab then 0 else 1)) ∧
    (semantic_analyze (some (.program (.cons
        (.while_stmt (.literal_bool true) (.block (.cons
          (.if_stmt (.literal_bool true)
            (.block (.cons .break_stmt .nil)) .null) .nil)))
        .nil)))).error_count = 0 ∧
    (semantic_analyze (some (.program (.cons
        (.while_stmt (.literal_bool true) (.block (.cons
          (.func_decl "f" .nil .nothing
            (.node (.block (.cons .break_stmt .nil)))) .nil)))
        .nil)))).error_count = 1 := by
  refine ⟨?_, ?_, by decide, by decide⟩
  · intro ops
    have h := loop_flag_invariant ops symtab_create [] rfl
    have hhead := congrArg List.headI h
    rw [spec_flags_head] at hhead
    rw [← hhead]
    cases hsc : (apply_scope_ops symtab_create ops).scopes with
    | nil =>
        rw [hsc] at h
        exact absurd h.symm (spec_flags_ne_nil _)
    | cons s rest => simp [symtab_in_loop, hsc]
  · intro ctx
    constructor <;>
      · show (if ¬symtab_in_loop ctx.symtab then ctx_error ctx
              else ctx).symtab.error_count = _
        by_cases hl : symtab_in_loop ctx.symtab = true <;> simp [hl, ctx_error]

/-! ## IR builder (`ir.c`) -/

/-- The operand's `data_type` field as the C struct carries it (the
constant kinds are always constructed with the fixed type noted on
`TACOperand`). -/
def operand_data_type : TACOperand → DataType
  | .none => .unknown
  | .temp _ dt => dt
  | .var _ dt => dt
  | .int_const _ => .number
  | .float_const _ => .decimal
  | .string_const _ => .text
  | .bool_const _ => .flag
  | .label _ => .unknown
  | .func _ => .function

/-- `IRGenContext` (ir.c:35-44) fused with the `TACProgram` fields it
reaches through `ctx->program` (`next_temp`, `next_label`, the function
list): `cur` is the function currently being emitted into
(`ctx->current_func`). -/
structure IRGenContext where
  next_temp : Int
  next_label : Int
  functions : List TACFunction
  func_count : Int
  cur : TACFunction
  in_function : Int
  loop_break_label : Int
  loop_continue_label : Int
  in_loop : Int

/-- `tac_function_create`. -/
def tac_function_create (name : Option String) (return_type : DataType) :
    TACFunction :=
  { name := name, return_type := return_type, param_names := [],
    param_types := [], instrs := [], instr_count := 0 }

/-- `tac_new_temp` (`prog->next_temp++`). -/
def tac_new_temp (s : IRGenContext) : Int × IRGenContext :=
  (s.next_temp, { s with next_temp := s.next_temp + 1 })

/-- `tac_new_label` (`prog->next_label++`). -/
def tac_new_label (s : IRGenContext) : Int × IRGenContext :=
  (s.next_label, { s with next_label := s.next_label + 1 })

/-- `tac_instr_create` + `tac_func_append`: append a fresh instruction
(`arg3 = none`, `is_dead = false`) to the current function, bumping its
`instr_count`.  Operand deep-copying is the identity on values. -/
def tac_emit (s : IRGenContext) (op : TACOpcode)
    (result arg1 arg2 : TACOperand) : IRGenContext :=
  { s with cur := { s.cur with
      instrs := s.cur.instrs ++ [⟨op, result, arg1, arg2, .none, false⟩],
      instr_count := s.cur.instr_count + 1 } }

/-- `tac_emit3` (sets `arg3`, for `Between` and `ListSet`). -/
def tac_emit3 (s : IRGenContext) (op : TACOpcode)
    (result arg1 arg2 arg3 : TACOperand) : IRGenContext :=
  { s with cur := { s.cur with
      instrs := s.cur.instrs ++ [⟨op, result, arg1, arg2, arg3, false⟩],
      instr_count := s.cur.instr_count + 1 } }

/-- `tac_emit_label`. -/
def tac_emit_label (s : IRGenContext) (label_id : Int) : IRGenContext :=
  tac_emit s .label (.label label_id) .none .none

/-- `tac_emit_goto`. -/
def tac_emit_goto (s : IRGenContext) (label_id : Int) : IRGenContext :=
  tac_emit s .goto (.label label_id) .none .none

/-- `tac_emit_if_goto`. -/
def tac_emit_if_goto (s : IRGenContext) (cond : TACOperand) (label_id : Int) :
    IRGenContext :=
  tac_emit s .if_goto (.label label_id) cond .none

/-- `tac_emit_if_false_goto`. -/
def tac_emit_if_false_goto (s : IRGenContext) (cond : TACOperand)
    (label_id : Int) : IRGenContext :=
  tac_emit s .if_false_goto (.label label_id) cond .none

/-- `func->last->is_dead = true` (the `ForEach` stale-call fix,
ir.c:1061): mark the most recently appended instruction dead. -/
def mark_last_dead : List TACInstr → List TACInstr
  | [] => []
  | [i] => [{ i with is_dead := true }]
  | i :: rest => i :: mark_last_dead rest

/-- `operator_to_tac` (ir.c:638-659). -/
def operator_to_tac : Operator → TACOpcode
  | .add => .add
  | .sub => .sub
  | .mul => .mul
  | .div => .div
  | .mod => .mod
  | .pow => .pow
  | .eq => .eq
  | .neq => .neq
  | .lt => .lt
  | .gt => .gt
  | .lte => .lte
  | .gte => .gte
  | .and => .and
  | .or => .or
  | .not => .not
  | .neg => .neg
  | .between => .between
  | .pos => .nop

/-- `binop_result_type` (ir.c:662-679); note the default returns `left`
unchanged. -/
def binop_result_type (op : Operator) (left right : DataType) : DataType :=
  match op with
  | .eq | .neq | .lt | .gt | .lte | .gte | .and | .or | .between => .flag
  | _ =>
      if op = .add ∧ (left = .text ∨ right = .text) then .text
      else if left = .decimal ∨ right = .decimal then .decimal
      else left

/-- `p->data.param_decl.name` as read by the `FuncDecl` parameter-copy
loop (ir.c:1116-1120); the loop does not check the node kind, so for a
non-`param_decl` node the C read is an unspecified union access,
defaulted here. -/
def param_name_of : ASTNode → String
  | .param_decl n _ => n
  | _ => ""

/-- `p->data.param_decl.param_type`, same convention. -/
def param_type_of : ASTNode → DataType
  | .param_decl _ t => t
  | _ => .unknown

/-- An `ASTNodeList` as a Lean list (for the parameter-copy loop). -/
def astlist_nodes : ASTNodeList → List ASTNode
  | .nil => []
  | .cons hd tl => hd :: astlist_nodes tl

mutual

/-- `ir_gen_expression` (ir.c:681-836): lowers an expression, returning
the operand holding its value and the updated context. -/
def ir_gen_expression (s : IRGenContext) : ASTNode → TACOperand × IRGenContext
  | .literal_int v =>
      let (t, s) := tac_new_temp s
      let s := tac_emit s .load_int (.temp t .number) (.int_const v) .none
      (.temp t .number, s)
  | .literal_float v =>
      let (t, s) := tac_new_temp s
      let s := tac_emit s .load_float (.temp t .decimal) (.float_const v) .none
      (.temp t .decimal, s)
  | .literal_string v =>
      let (t, s) := tac_new_temp s
      let s := tac_emit s .load_string (.temp t .text) (.string_const v) .none
      (.temp t .text, s)
  | .literal_bool v =>
      let (t, s) := tac_new_temp s
      let s := tac_emit s .load_bool (.temp t .flag) (.bool_const v) .none
      (.temp t .flag, s)
  | .identifier name dt =>
      (.var name (if dt ≠ .unknown then dt else .number), s)
  | .binary_op op l r =>
      let (left, s) := ir_gen_expression s l
      let (right, s) := ir_gen_expression s r
      let res_type :=
        binop_result_type op (operand_data_type left) (operand_data_type right)
      if op = .add ∧ (operand_data_type left = .text ∨
          operand_data_type right = .text) then
        let (t, s) := tac_new_temp s
        let s := tac_emit s .concat (.temp t .text) left right
        (.temp t .text, s)
      else
        let (t, s) := tac_new_temp s
        let s := tac_emit s (operator_to_tac op) (.temp t res_type) left right
        (.temp t res_type, s)
  | .unary_op op e =>
      let (operand, s) := ir_gen_expression s e
      let res_type := if op = .not then DataType.flag else operand_data_type operand
      let (t, s) := tac_new_temp s
      let s := tac_emit s (operator_to_tac op) (.temp t res_type) operand .none
      (.temp t res_type, s)
  | .ternary_op v lo hi =>
      let (val, s) := ir_gen_expression s v
      let (lower, s) := ir_gen_expression s lo
      let (upper, s) := ir_gen_expression s hi
      let (t, s) := tac_new_temp s
      let s := tac_emit3 s .between (.temp t .flag) val lower upper
      (.temp t .flag, s)
  | .func_call name args dt =>
      let nargs : Int := args.length
      let s := ir_gen_args s args
      let ret_type := if dt ≠ .unknown then dt else .number
      let (t, s) := tac_new_temp s
      let s := tac_emit s .call (.temp t ret_type) (.func name) (.int_const nargs)
      (.temp t ret_type, s)
  | .list_literal elems =>
      let count : Int := elems.length
      let (t, s) := tac_new_temp s
      let s := tac_emit s .list_create (.temp t .list) (.int_const count) .none
      let s := ir_gen_elems s t elems
      (.temp t .list, s)
  | .index_expr arr idx dt =>
      let (a, s) := ir_gen_expression s arr
      let (ix, s) := ir_gen_expression s idx
      let elem_type := if dt ≠ .unknown then dt else .number
      let (t, s) := tac_new_temp s
      let s := tac_emit s .list_get (.temp t elem_type) a ix
      (.temp t elem_type, s)
  | _ => (.none, s)
termination_by structural n => n

/-- The argument loop of the `FuncCall` case: evaluate each argument and
emit one `Param` for it. -/
def ir_gen_args (s : IRGenContext) : ASTNodeList → IRGenContext
  | .nil => s
  | .cons a rest =>
      let (arg, s) := ir_gen_expression s a
      let s := tac_emit s .param .none arg .none
      ir_gen_args s rest
termination_by structural l => l

/-- The element loop of the `List` literal case: evaluate each element
and append it to the list temp. -/
def ir_gen_elems (s : IRGenContext) (t : Int) : ASTNodeList → IRGenContext
  | .nil => s
  | .cons e rest =>
      let (elem, s) := ir_gen_expression s e
      let s := tac_emit s .list_append (.temp t .list) elem .none
      ir_gen_elems s t rest
termination_by structural l => l

/-- `ir_gen_statement` (ir.c:843-1210) fused with `ir_gen_node`
(ir.c:1216-1229).  In C, `ir_gen_node` routes `Program` to the statement
loop and every other node to `ir_gen_statement`, whose own `default` arm
only logs a warning for `Program`; `ir_gen_statement` is reached only
through that dispatch, so the pair is one total function, modelled under
the name `ir_gen_node` (the first arm is `ir_gen_node`'s `Program` loop,
the rest is `ir_gen_statement`'s switch). -/
def ir_gen_node (s : IRGenContext) : ASTNode → IRGenContext
  | .program statements => ir_gen_stmt_list s statements
  | .var_decl name var_type initializer _ =>
      let s := tac_emit s .decl (.var name var_type) .none .none
      (match initializer with
       | .null => s
       | .node e =>
           let (val, s) := ir_gen_expression s e
           tac_emit s .assign (.var name var_type) val .none)
  | .assign target value =>
      let (val, s) := ir_gen_expression s value
      (match target with
       | .index_expr array index _ =>
           let (arr, s) := ir_gen_expression s array
           let (idx, s) := ir_gen_expression s index
           tac_emit3 s .list_set arr idx val .none
       | .identifier name dt =>
           let dt := if dt ≠ .unknown then dt else DataType.number
           tac_emit s .assign (.var name dt) val .none
       | t =>
           let (tgt, s) := ir_gen_expression s t
           tac_emit s .assign tgt val .none)
  | .display_stmt value =>
      let (val, s) := ir_gen_expression s value
      tac_emit s .display .none val .none
  | .ask_stmt prompt target_var =>
      let (p, s) :=
        match prompt with
        | .null => ((TACOperand.none), s)
        | .node e => ir_gen_expression s e
      tac_emit s .ask (.var target_var .text) p .none
  | .read_stmt target_var =>
      tac_emit s .read (.var target_var .text) .none .none
  | .if_stmt condition then_branch else_branch =>
      let (cond, s) := ir_gen_expression s condition
      (match else_branch with
       | .node e =>
           let (else_label, s) := tac_new_label s
           let (end_label, s) := tac_new_label s
           let s := tac_emit_if_false_goto s cond else_label
           let s := ir_gen_node s then_branch
           let s := tac_emit_goto s end_label
           let s := tac_emit_label s else_label
           let s := ir_gen_node s e
           tac_emit_label s end_label
       | .null =>
           let (end_label, s) := tac_new_label s
           let s := tac_emit_if_false_goto s cond end_label
           let s := ir_gen_node s then_branch
           tac_emit_label s end_label)
  | .while_stmt condition body =>
      let (loop_start, s) := tac_new_label s
      let (loop_end, s) := tac_new_label s
      let saved_break := s.loop_break_label
      let saved_continue := s.loop_continue_label
      let s := { s with loop_break_label := loop_end,
                        loop_continue_label := loop_start,
                        in_loop := s.in_loop + 1 }
      let s := tac_emit_label s loop_start
      let (cond, s) := ir_gen_expression s condition
      let s := tac_emit_if_false_goto s cond loop_end
      let s := ir_gen_node s body
      let s := tac_emit_goto s loop_start
      let s := tac_emit_label s loop_end
      { s with in_loop := s.in_loop - 1, loop_break_label := saved_break,
               loop_continue_label := saved_continue }
  | .repeat_stmt count body =>
      let (limit, s) := ir_gen_expression s count
      let (iter_t, s) := tac_new_temp s
      let s := tac_emit s .load_int (.temp iter_t .number) (.int_const 0) .none
      let (loop_start, s) := tac_new_label s
      let (loop_end, s) := tac_new_label s
      let (loop_inc, s) := tac_new_label s
      let saved_break := s.loop_break_label
      let saved_continue := s.loop_continue_label
      let s := { s with loop_break_label := loop_end,
                        loop_continue_label := loop_inc,
                        in_loop := s.in_loop + 1 }
      let s := tac_emit_label s loop_start
      let (cond_t, s) := tac_new_temp s
      let s := tac_emit s .gte (.temp cond_t .flag) (.temp iter_t .number) limit
      let s := tac_emit_if_goto s (.temp cond_t .flag) loop_end
      let s := ir_gen_node s body
      let s := tac_emit_label s loop_inc
      let s := tac_emit s .add (.temp iter_t .number) (.temp iter_t .number)
        (.int_const 1)
      let s := tac_emit_goto s loop_start
      let s := tac_emit_label s loop_end
      { s with in_loop := s.in_loop - 1, loop_break_label := saved_break,
               loop_continue_label := saved_continue }
  | .for_each_stmt iterator_name iterable body =>
      let (list, s) := ir_gen_expression s iterable
      let (idx_t, s) := tac_new_temp s
      let s := tac_emit s .load_int (.temp idx_t .number) (.int_const 0) .none
      let (loop_start, s) := tac_new_label s
      let (loop_end, s) := tac_new_label s
      let (loop_inc, s) := tac_new_label s
      let saved_break := s.loop_break_label
      let saved_continue := s.loop_continue_label
      let s := { s with loop_break_label := loop_end,
                        loop_continue_label := loop_inc,
                        in_loop := s.in_loop + 1 }
      let s := tac_emit_label s loop_start
      let (len_t, s) := tac_new_temp s
      let s := tac_emit s .call (.temp len_t .number) (.func "__list_length")
        (.int_const 0)
      let s := { s with cur := { s.cur with instrs := mark_last_dead s.cur.instrs } }
      let s := tac_emit s .param .none list .none
      let s := tac_emit s .call (.temp len_t .number) (.func "__list_length")
        (.int_const 1)
      let (cond_t, s) := tac_new_temp s
      let s := tac_emit s .gte (.temp cond_t .flag) (.temp idx_t .number)
        (.temp len_t .number)
      let s := tac_emit_if_goto s (.temp cond_t .flag) loop_end
      let s := tac_emit s .decl (.var iterator_name .number) .none .none
      let (elem_t, s) := tac_new_temp s
      let s := tac_emit s .list_get (.temp elem_t .number) list (.temp idx_t .number)
      let s := tac_emit s .assign (.var iterator_name .number)
        (.temp elem_t .number) .none
      let s := ir_gen_node s body
      let s := tac_emit_label s loop_inc
      let s := tac_emit s .add (.temp idx_t .number) (.temp idx_t .number)
        (.int_const 1)
      let s := tac_emit_goto s loop_start
      let s := tac_emit_label s loop_end
      { s with in_loop := s.in_loop - 1, loop_break_label := saved_break,
               loop_continue_label := saved_continue }
  | .func_decl name params return_type body =>
      let new_func := tac_function_create (some name) return_type
      let new_func :=
        { new_func with
            param_names := (astlist_nodes params).map param_name_of,
            param_types := (astlist_nodes params).map param_type_of }
      let new_func :=
        { new_func with
            instrs := [⟨.func_begin, .func name, .none, .none, .none, false⟩],
            instr_count := 1 }
      let saved_func := s.cur
      let saved_in_func := s.in_function
      let s := { s with cur := new_func, in_function := 1 }
      let s :=
        match body with
        | .null => s
        | .node b => ir_gen_node s b
      let s := tac_emit s .func_end .none .none .none
      let finished := s.cur
      let s := { s with cur := saved_func, in_function := saved_in_func }
      { s with functions := finished :: s.functions, func_count := s.func_count + 1 }
  | .return_stmt value =>
      (match value with
       | .node e =>
           let (val, s) := ir_gen_expression s e
           tac_emit s .ret .none val .none
       | .null => tac_emit s .ret .none .none .none)
  | .break_stmt =>
      if s.in_loop ≠ 0 then tac_emit_goto s s.loop_break_label else s
  | .continue_stmt =>
      if s.in_loop ≠ 0 then tac_emit_goto s s.loop_continue_label else s
  | .secure_zone body _ =>
      let s := tac_emit s .secure_begin .none .none .none
      let s := tac_emit s .scope_begin .none .none .none
      let s := ir_gen_node s body
      let s := tac_emit s .scope_end .none .none .none
      tac_emit s .secure_end .none .none .none
  | .expr_stmt e =>
      let (_, s) := ir_gen_expression s e
      s
  | .block statements =>
      let s := tac_emit s .scope_begin .none .none .none
      let s := ir_gen_stmt_list s statements
      tac_emit s .scope_end .none .none .none
  | _ => s
termination_by structural n => n

/-- The statement loop shared by the `Program` dispatch and the `Block`
case. -/
def ir_gen_stmt_list (s : IRGenContext) : ASTNodeList → IRGenContext
  | .nil => s
  | .cons n rest => ir_gen_stmt_list (ir_gen_node s n) rest
termination_by structural l => l

end

/-- `TACProgram` (`ir.h`). -/
structure TACProgram where
  main_func : TACFunction
  functions : List TACFunction
  func_count : Int
  next_temp : Int
  next_label : Int
  total_instructions : Int

/-- `ir_count_total`. -/
def ir_count_total_of (main : TACFunction) (fns : List TACFunction) : Int :=
  main.instr_count + (fns.map (·.instr_count)).sum

/-- `ir_generate` (ir.c:1236-1250): `NULL` AST yields `NULL`; otherwise
lower from a fresh context whose current function is the implicit main
function. -/
def ir_generate (ast : Option ASTNode) : Option TACProgram :=
  match ast with
  | Option.none => Option.none
  | some a =>
      let s : IRGenContext :=
        { next_temp := 0, next_label := 0, functions := [], func_count := 0,
          cur := tac_function_create Option.none .nothing, in_function := 0,
          loop_break_label := 0, loop_continue_label := 0, in_loop := 0 }
      let s := ir_gen_node s a
      some { main_func := s.cur, functions := s.functions,
             func_count := s.func_count, next_temp := s.next_temp,
             next_label := s.next_label,
             total_instructions := ir_count_total_of s.cur s.functions }

/-! ## Claim C7 -/

/-- One-step unfolding of `ir_gen_node` at a `repeat_stmt` node, stated
verbatim as the match arm so it holds by `rfl` (the generic equation
lemmas for this large mutual definition are expensive to use). -/
theorem ir_gen_node_repeat_stmt (s : IRGenContext) (count body : ASTNode) :
    ir_gen_node s (.repeat_stmt count body) =
      (let (limit, s) := ir_gen_expression s count
       let (iter_t, s) := tac_new_temp s
       let s := tac_emit s .load_int (.temp iter_t .number) (.int_const 0) .none
       let (loop_start, s) := tac_new_label s
       let (loop_end, s) := tac_new_label s
       let (loop_inc, s) := tac_new_label s
       let saved_break := s.loop_break_label
       let saved_continue := s.loop_continue_label
       let s := { s with loop_break_label := loop_end,
                         loop_continue_label := loop_inc,
                         in_loop := s.in_loop + 1 }
       let s := tac_emit_label s loop_start
       let (cond_t, s) := tac_new_temp s
       let s := tac_emit s .gte (.temp cond_t .flag) (.temp iter_t .number) limit
       let s := tac_emit_if_goto s (.temp cond_t .flag) loop_end
       let s := ir_gen_node s body
       let s := tac_emit_label s loop_inc
       let s := tac_emit s .add (.temp iter_t .number) (.temp iter_t .number)
         (.int_const 1)
       let s := tac_emit_goto s loop_start
       let s := tac_emit_label s loop_end
       { s with in_loop := s.in_loop - 1, loop_break_label := saved_break,
                loop_continue_label := saved_continue }) := rfl

set_option maxHeartbeats 4000000 in
/-- C7: lowering `Repeat(count, body)` emits, in order: the lowering of
`count` (yielding the `limit` operand and state `s1`); `LoadInt 0` into
the fresh iterator temp `s1.next_temp`; `Label start` (the first fresh
label); a fresh `Flag` temp computed as `iter >= limit` (`Gte`);
`IfGoto end` conditioned on that temp; the lowered body — lowered in a
state whose break label is `end` and continue label is `inc` (the second
and third fresh labels); then `Label inc`; `iter = iter + 1` (`Add`);
`Goto start`; `Label end` — and the previous break/continue labels are
restored afterwards. -/
theorem C7_repeat_lowering (s : IRGenContext) (count body : ASTNode) :
    ir_gen_node s (.repeat_stmt count body) =
      (let limit := (ir_gen_expression s count).1
       let s1 := (ir_gen_expression s count).2
       let iter_t := s1.next_temp
       let start := s1.next_label
       let endl := s1.next_label + 1
       let inc := s1.next_label + 2
       let cond_t := s1.next_temp + 1
       let s2 : IRGenContext :=
         { s1 with
             next_temp := s1.next_temp + 2,
             next_label := s1.next_label + 3,
             loop_break_label := endl,
             loop_continue_label := inc,
             in_loop := s1.in_loop + 1,
             cur := { s1.cur with
                 instrs := s1.cur.instrs ++
                   [⟨.load_int, .temp iter_t .number, .int_const 0, .none, .none, false⟩,
                    ⟨.label, .label start, .none, .none, .none, false⟩,
                    ⟨.gte, .temp cond_t .flag, .temp iter_t .number, limit, .none, false⟩,
                    ⟨.if_goto, .label endl, .temp cond_t .flag, .none, .none, false⟩],
                 instr_count := s1.cur.instr_count + 4 } }
       let sB := ir_gen_node s2 body
       { sB with
           in_loop := sB.in_loop - 1,
           loop_break_label := s1.loop_break_label,
           loop_continue_label := s1.loop_continue_label,
           cur := { sB.cur with
               instrs := sB.cur.instrs ++
                 [⟨.label, .label inc, .none, .none, .none, false⟩,
                  ⟨.add, .temp iter_t .number, .temp iter_t .number, .int_const 1, .none, false⟩,
                  ⟨.goto, .label start, .none, .none, .none, false⟩,
                  ⟨.label, .label endl, .none, .none, .none, false⟩],
               instr_count := sB.cur.instr_count + 4 } }) := by
  rcases h : ir_gen_expression s count with ⟨limit, s1⟩
  rw [ir_gen_node_repeat_stmt, h]
  dsimp only [tac_new_temp, tac_new_label, tac_emit, tac_emit_label,
    tac_emit_goto, tac_emit_if_goto, tac_emit_if_false_goto]
  simp only [List.append_assoc, List.singleton_append, List.cons_append]
  norm_num
  ring_nf
  exact ⟨trivial, trivial, trivial, trivial,
    ⟨trivial, trivial, trivial, trivial, trivial, trivial⟩, trivial, trivial⟩

/-! ## Claim C8 -/

/-- Marking the most recently appended instruction dead only touches the
final element of the list. -/
theorem mark_last_dead_append (l : List TACInstr) (a : TACInstr) :
    mark_last_dead (l ++ [a]) = l ++ [{ a with is_dead := true }] := by
  induction l with
  | nil => rfl
  | cons x xs ih =>
      cases xs with
      | nil => cases a; rfl
      | cons y ys => simpa [mark_last_dead] using ih

/-- The ten header instructions the `ForEach` lowering emits before the
body (statement-side abbreviation for the C8 theorem): index initialiser,
loop-start label, the stale zero-argument `__list_length` call already
marked dead, the `Param`/`Call 1` pair that really computes the length,
the exit test, and the element fetch/assign. -/
def for_each_header (list : TACOperand) (iterator_name : String)
    (idx_t len_t cond_t elem_t start endl : Int) : List TACInstr :=
  [⟨.load_int, .temp idx_t .number, .int_const 0, .none, .none, false⟩,
   ⟨.label, .label start, .none, .none, .none, false⟩,
   ⟨.call, .temp len_t .number, .func "__list_length", .int_const 0, .none, true⟩,
   ⟨.param, .none, list, .none, .none, false⟩,
   ⟨.call, .temp len_t .number, .func "__list_length", .int_const 1, .none, false⟩,
   ⟨.gte, .temp cond_t .flag, .temp idx_t .number, .temp len_t .number, .none, false⟩,
   ⟨.if_goto, .label endl, .temp cond_t .flag, .none, .none, false⟩,
   ⟨.decl, .var iterator_name .number, .none, .none, .none, false⟩,
   ⟨.list_get, .temp elem_t .number, list, .temp idx_t .number, .none, false⟩,
   ⟨.assign, .var iterator_name .number, .temp elem_t .number, .none, .none, false⟩]

/-- One-step unfolding of `ir_gen_node` at a `for_each_stmt` node, stated
verbatim as the match arm so it holds by `rfl`. -/
theorem ir_gen_node_for_each_stmt (s : IRGenContext) (iterator_name : String)
    (iterable body : ASTNode) :
    ir_gen_node s (.for_each_stmt iterator_name iterable body) =
      (let (list, s) := ir_gen_expression s iterable
       let (idx_t, s) := tac_new_temp s
       let s := tac_emit s .load_int (.temp idx_t .number) (.int_const 0) .none
       let (loop_start, s) := tac_new_label s
       let (loop_end, s) := tac_new_label s
       let (loop_inc, s) := tac_new_label s
       let saved_break := s.loop_break_label
       let saved_continue := s.loop_continue_label
       let s := { s with loop_break_label := loop_end,
                         loop_continue_label := loop_inc,
                         in_loop := s.in_loop + 1 }
       let s := tac_emit_label s loop_start
       let (len_t, s) := tac_new_temp s
       let s := tac_emit s .call (.temp len_t .number) (.func "__list_length")
         (.int_const 0)
       let s := { s with cur := { s.cur with instrs := mark_last_dead s.cur.instrs } }
       let s := tac_emit s .param .none list .none
       let s := tac_emit s .call (.temp len_t .number) (.func "__list_length")
         (.int_const 1)
       let (cond_t, s) := tac_new_temp s
       let s := tac_emit s .gte (.temp cond_t .flag) (.temp idx_t .number)
         (.temp len_t .number)
       let s := tac_emit_if_goto s (.temp cond_t .flag) loop_end
       let s := tac_emit s .decl (.var iterator_name .number) .none .none
       let (elem_t, s) := tac_new_temp s
       let s := tac_emit s .list_get (.temp elem_t .number) list (.temp idx_t .number)
       let s := tac_emit s .assign (.var iterator_name .number)
         (.temp elem_t .number) .none
       let s := ir_gen_node s body
       let s := tac_emit_label s loop_inc
       let s := tac_emit s .add (.temp idx_t .number) (.temp idx_t .number)
         (.int_const 1)
       let s := tac_emit_goto s loop_start
       let s := tac_emit_label s loop_end
       { s with in_loop := s.in_loop - 1, loop_break_label := saved_break,
                loop_continue_label := saved_continue }) := rfl

set_option maxHeartbeats 4000000 in
/-- C8: lowering `ForEach(iterator_name, iterable, body)` first lowers the
iterable, then emits exactly the ten `for_each_header` instructions before
the lowered body: in that header the stale zero-argument `__list_length`
call sits at index 2 already marked dead, and every live `Call` of
`__list_length` in the header is the one-argument call at index 4, whose
result is the length temp and which is immediately preceded (index 3) by
the `Param` carrying the list operand. -/
theorem C8_for_each_dead_length_call (s : IRGenContext) (iterator_name : String)
    (iterable body : ASTNode) :
    (ir_gen_node s (.for_each_stmt iterator_name iterable body) =
      (let list := (ir_gen_expression s iterable).1
       let s1 := (ir_gen_expression s iterable).2
       let idx_t := s1.next_temp
       let len_t := s1.next_temp + 1
       let cond_t := s1.next_temp + 2
       let elem_t := s1.next_temp + 3
       let start := s1.next_label
       let endl := s1.next_label + 1
       let inc := s1.next_label + 2
       let s2 : IRGenContext :=
         { s1 with
             next_temp := s1.next_temp + 4,
             next_label := s1.next_label + 3,
             loop_break_label := endl,
             loop_continue_label := inc,
             in_loop := s1.in_loop + 1,
             cur := { s1.cur with
                 instrs := s1.cur.instrs ++
                   for_each_header list iterator_name idx_t len_t cond_t elem_t
                     start endl,
                 instr_count := s1.cur.instr_count + 10 } }
       let sB := ir_gen_node s2 body
       { sB with
           in_loop := sB.in_loop - 1,
           loop_break_label := s1.loop_break_label,
           loop_continue_label := s1.loop_continue_label,
           cur := { sB.cur with
               instrs := sB.cur.instrs ++
                 [⟨.label, .label inc, .none, .none, .none, false⟩,
                  ⟨.add, .temp idx_t .number, .temp idx_t .number, .int_const 1, .none, false⟩,
                  ⟨.goto, .label start, .none, .none, .none, false⟩,
                  ⟨.label, .label endl, .none, .none, .none, false⟩],
               instr_count := sB.cur.instr_count + 4 } })) ∧
    (∀ (list : TACOperand) (idx_t len_t cond_t elem_t start endl : Int),
      (for_each_header list iterator_name idx_t len_t cond_t elem_t start endl)[2]? =
        some ⟨.call, .temp len_t .number, .func "__list_length", .int_const 0,
          .none, true⟩) ∧
    (∀ (list : TACOperand) (idx_t len_t cond_t elem_t start endl : Int)
       (j : Nat) (instr : TACInstr),
      (for_each_header list iterator_name idx_t len_t cond_t elem_t start endl)[j]? =
          some instr →
      instr.is_dead = false → instr.opcode = .call →
      instr.arg1 = .func "__list_length" →
      j = 4 ∧ instr.arg2 = .int_const 1 ∧
        instr.result = .temp len_t .number ∧
        (for_each_header list iterator_name idx_t len_t cond_t elem_t start endl)[3]? =
          some ⟨.param, .none, list, .none, .none, false⟩) := by
  refine ⟨?_, ?_, ?_⟩
  · rcases h : ir_gen_expression s iterable with ⟨list, s1⟩
    rw [ir_gen_node_for_each_stmt, h]
    dsimp only [tac_new_temp, tac_new_label, tac_emit, tac_emit_label,
      tac_emit_goto, tac_emit_if_goto]
    rw [mark_last_dead_append]
    simp only [for_each_header, List.append_assoc, List.singleton_append,
      List.cons_append]
    norm_num
    ring_nf
    exact ⟨trivial, trivial, trivial, trivial,
      ⟨trivial, trivial, trivial, trivial, trivial, trivial⟩, trivial, trivial⟩
  · intro list idx_t len_t cond_t elem_t start endl
    rfl
  · intro list idx_t len_t cond_t elem_t start endl j instr hj hlive hop harg
    have hlen : j < 10 := by
      rcases Nat.lt_or_ge j 10 with h10 | h10
      · exact h10
      · exfalso
        have hnone : (for_each_header list iterator_name idx_t len_t cond_t
            elem_t start endl)[j]? = none := by
          apply List.getElem?_eq_none
          simpa [for_each_header] using h10
        rw [hnone] at hj
        exact Option.noConfusion hj
    interval_cases j <;>
      simp only [for_each_header, List.getElem?_cons_zero,
        List.getElem?_cons_succ, Option.some.injEq] at hj <;>
      subst hj <;>
      simp_all [for_each_header]

/-! ## Claim C9: call-argument gathering in the C backend
(`emit_instruction`, `TAC_CALL` case, ir_codegen.c:814-868).

The C code walks the `instr->prev` chain; here the instructions preceding
the call are a list `prev` in program order, so the walk runs over
`prev.reverse`.  The C buffer `TACInstr *params[64]` is modelled as an
unbounded list (for `nargs > 64` the C code writes past the buffer, which
is undefined behaviour; the model idealises it as a growing buffer). -/

/-- The backward scan of the `TAC_CALL` case: from nearest preceding
instruction to farthest, skip dead instructions, collect `Param`s until
`nargs` have been found (`while (scan && found < nargs)`). -/
def gather_params : List TACInstr → Nat → List TACInstr
  | _, 0 => []
  | [], _ + 1 => []
  | i :: rest, n + 1 =>
      if i.is_dead then gather_params rest (n + 1)
      else if i.opcode = .param then i :: gather_params rest n
      else gather_params rest (n + 1)

/-- A live `Param` instruction: the ones the backward scan collects. -/
def is_live_param (i : TACInstr) : Bool :=
  !i.is_dead && i.opcode == .param

/-- The argument operands the backend prints for a `Call`, in print order
(`for (int i = found - 1; i >= 0; i--)`, so first parameter first):
`nargs` is the `arg2` integer when `arg2` is an integer operand and `0`
otherwise, the buffer is filled by the backward walk over the preceding
instructions, and the emission reverses the collection order. -/
def call_arg_operands (prev : List TACInstr) (call : TACInstr) :
    List TACOperand :=
  let nargs : Int :=
    match call.arg2 with
    | .int_const v => v
    | _ => 0
  if 0 < nargs then
    ((gather_params prev.reverse nargs.toNat).reverse).map (fun i => i.arg1)
  else []

/-- The backward scan collects exactly the first `n` live `Param`s of its
input list, in input order. -/
theorem gather_params_eq_take_filter (l : List TACInstr) :
    ∀ n, gather_params l n = (l.filter is_live_param).take n := by
  induction l with
  | nil => intro n; cases n <;> rfl
  | cons i rest ih =>
      intro n
      cases n with
      | zero => simp [gather_params]
      | succ m =>
          by_cases hd : i.is_dead
          · have hlp : is_live_param i = false := by
              simp [is_live_param, hd]
            simp [gather_params, hd, hlp, ih]
          · by_cases hp : i.opcode = .param
            · have hlp : is_live_param i = true := by
                simp [is_live_param, hd, hp]
              simp [gather_params, hd, hp, hlp, ih]
            · have hlp : is_live_param i = false := by
                simp [is_live_param, hp]
              simp [gather_params, hd, hp, hlp, ih]

/-- C9: when a `Call`'s `arg2` is the integer `n` (with `0 ≤ n`) and at
least `n` live `Param` instructions precede it, the backend emits exactly
`n` comma-separated arguments, namely the operands of the `n` nearest
live preceding `Param`s in original first-param-first (program) order. -/
theorem C9_call_argument_gathering (prev : List TACInstr) (call : TACInstr)
    (n : Int) (harg : call.arg2 = .int_const n) (hpos : 0 ≤ n)
    (havail : n.toNat ≤ (prev.filter is_live_param).length) :
    (call_arg_operands prev call).length = n.toNat ∧
    call_arg_operands prev call =
      (((prev.filter is_live_param).reverse.take n.toNat).reverse).map
        (fun i => i.arg1) := by
  unfold call_arg_operands
  rw [harg]
  dsimp only
  rcases lt_or_eq_of_le hpos with hlt | heq
  · rw [if_pos hlt, gather_params_eq_take_filter, List.filter_reverse]
    refine ⟨?_, rfl⟩
    simp only [List.length_map, List.length_reverse, List.length_take]
    omega
  · rw [if_neg (by omega), ← heq]
    exact ⟨rfl, rfl⟩

/-- Concrete run of the gathering: among the three `Param`s preceding the
call, the dead one is skipped and the two live ones are printed in
program order. -/
theorem C9_call_argument_gathering_witness :
    (call_arg_operands
        [⟨.param, .none, .var "x" .number, .none, .none, false⟩,
         ⟨.assign, .temp 9 .number, .int_const 7, .none, .none, false⟩,
         ⟨.param, .none, .int_const 0, .none, .none, true⟩,
         ⟨.param, .none, .var "y" .number, .none, .none, false⟩]
        ⟨.call, .temp 0 .number, .func "f", .int_const 2, .none, false⟩).length =
      (2 : Int).toNat ∧
    call_arg_operands
        [⟨.param, .none, .var "x" .number, .none, .none, false⟩,
         ⟨.assign, .temp 9 .number, .int_const 7, .none, .none, false⟩,
         ⟨.param, .none, .int_const 0, .none, .none, true⟩,
         ⟨.param, .none, .var "y" .number, .none, .none, false⟩]
        ⟨.call, .temp 0 .number, .func "f", .int_const 2, .none, false⟩ =
      ((([⟨.param, .none, .var "x" .number, .none, .none, false⟩,
          ⟨.assign, .temp 9 .number, .int_const 7, .none, .none, false⟩,
          ⟨.param, .none, .int_const 0, .none, .none, true⟩,
          ⟨.param, .none, .var "y" .number, .none, .none,
            false⟩].filter is_live_param).reverse.take
          (2 : Int).toNat).reverse).map (fun i => i.arg1) :=
  C9_call_argument_gathering _ _ 2 rfl (by decide) (by decide)

end NatureLang
